import Mathlib

/-!
Verification of the Everlife-Farm progression engine.

This file gives a shallow embedding, in Lean, of the game's simulation core:
the plant/variant catalog and its pure lookup functions (farm-data.ts,
farm-milestones.ts), the probabilistic variant-roll functions, the valuation
functions, and the stateful engine operations of the FarmGame component
(createDefaultState, plantSeed, the 1-second tick, doHarvest, doRebirth,
loadGame, giveSeedsToFarmer, collectFarmerSlot, buySeed, buyField,
buyRebirthField, waterField).

Modelling conventions:
* JavaScript numbers are embedded as exact rationals; Math.floor is mathFloor.
* Math.random() draws are modeled by an oracle stream (Nat to rationals in
  [0,1)) together with an explicit read position that each draw advances.
* JavaScript objects used as string-keyed maps are association lists with
  distinct keys; lookupA / updateA mirror property read / property write.
* Display-only fields (names, icons, emoji, stage glyphs, colors, toast
  texts, sounds) and the React-only bookkeeping around setState are omitted:
  they never influence the engine state claimed about.
* Fallible lookups that would throw (or yield NaN) in JavaScript before any
  state update are embedded as a no-op on the state or as Option results.
-/

/-- JavaScript Math.floor on exact rationals; the result is kept as a
rational, mirroring the JS number type. -/
def mathFloor (q : ℚ) : ℚ := (⌊q⌋ : ℚ)

/-- Association-list lookup, mirroring a JavaScript object property read
(objects used as maps in the engine always have distinct keys). -/
def lookupA {κ α : Type} [DecidableEq κ] : List (κ × α) → κ → Option α
  | [], _ => none
  | (k, v) :: rest, key => if k = key then some v else lookupA rest key

/-- Association-list update, mirroring a JavaScript object property write:
an existing key is overwritten in place, a new key is appended at the end. -/
def updateA {κ α : Type} [DecidableEq κ] : List (κ × α) → κ → α → List (κ × α)
  | [], key, v => [(key, v)]
  | (k, w) :: rest, key, v =>
    if k = key then (key, v) :: rest
    else (k, w) :: updateA rest key v

/-- Plant catalog entry (farm-data.ts). Display-only fields (name, icon,
stages) are omitted; variantBonus is optional exactly as in the source,
where the roll functions read it as `plant.variantBonus || 1`. -/
structure Plant where
  price : ℚ
  value : ℚ
  growTime : ℚ
  isRebirth : Bool := false
  rebirthRequired : Nat := 0
  variantBonus : Option ℚ := none
deriving DecidableEq

/-- Regular plants (farm-data.ts `plants`). -/
def plants : List (String × Plant) := [
  ("carrot",      { price := 10,   value := 25,   growTime := 60000 }),
  ("potato",      { price := 20,   value := 50,   growTime := 120000 }),
  ("tomato",      { price := 40,   value := 90,   growTime := 240000 }),
  ("corn",        { price := 80,   value := 180,  growTime := 480000 }),
  ("onion",       { price := 150,  value := 300,  growTime := 720000 }),
  ("pumpkin",     { price := 300,  value := 600,  growTime := 960000 }),
  ("strawberry",  { price := 500,  value := 1000, growTime := 1200000 }),
  ("broccoli",    { price := 750,  value := 1500, growTime := 1500000 }),
  ("watermelon",  { price := 1000, value := 2000, growTime := 1800000 }),
  ("dragonfruit", { price := 2000, value := 4000, growTime := 2700000 })
]

/-- Rebirth plants (farm-data.ts `rebirthPlants`). -/
def rebirthPlants : List (String × Plant) := [
  ("rebirth_rose",    { price := 50,   value := 150,   growTime := 45000,
                        isRebirth := true, rebirthRequired := 1,   variantBonus := some 1.5 }),
  ("rebirth_orchid",  { price := 200,  value := 600,   growTime := 90000,
                        isRebirth := true, rebirthRequired := 5,   variantBonus := some 1.5 }),
  ("rebirth_lotus",   { price := 500,  value := 1500,  growTime := 150000,
                        isRebirth := true, rebirthRequired := 10,  variantBonus := some 1.5 }),
  ("rebirth_crystal", { price := 1000, value := 3000,  growTime := 240000,
                        isRebirth := true, rebirthRequired := 20,  variantBonus := some 1.5 }),
  ("rebirth_star",    { price := 5000, value := 15000, growTime := 360000,
                        isRebirth := true, rebirthRequired := 100, variantBonus := some 1.5 })
]

/-- `getAllPlants` (farm-data.ts): the regular plants plus every rebirth
plant whose requirement is met. The JS object spread over disjoint key sets
is embedded as list append, preserving lookup behavior. -/
def getAllPlants (rebirths : Nat) : List (String × Plant) :=
  plants ++ rebirthPlants.filter (fun e => rebirths ≥ e.2.rebirthRequired)

/-- Variant catalog entry (farm-data.ts). Display-only fields (name, color,
emoji) are omitted. `chance` is the 1-in-N base rarity. -/
structure Variant where
  multiplier : ℚ
  chance : ℚ
deriving DecidableEq

/-- Variant catalog (farm-data.ts `variants`), ordered common to rare. -/
def variants : List (String × Variant) := [
  ("normal",    { multiplier := 1,   chance := 1 }),
  ("gold",      { multiplier := 2.5, chance := 20 }),
  ("shiny",     { multiplier := 5,   chance := 75 }),
  ("diamond",   { multiplier := 10,  chance := 250 }),
  ("platinum",  { multiplier := 20,  chance := 1000 }),
  ("mythic",    { multiplier := 50,  chance := 5000 }),
  ("legendary", { multiplier := 150, chance := 25000 })
]

/-- `variantKeys = Object.keys(variants)` (farm-data.ts). -/
def variantKeys : List String := variants.map Prod.fst

/-- The key order walked by the roll loops: indices from
`variantKeys.length - 1` down to `1`, i.e. every non-normal variant from
rarest to commonest. -/
def rollKeysRarestFirst : List String := (variantKeys.drop 1).reverse

/-- Timed event (farm-types.ts GameEvent); display fields omitted. -/
structure GameEvent where
  focusVariant : String
deriving DecidableEq

/-- Event catalog (farm-data.ts `eventTypes`). -/
def eventTypes : List GameEvent := [
  { focusVariant := "gold" },
  { focusVariant := "shiny" },
  { focusVariant := "diamond" },
  { focusVariant := "platinum" },
  { focusVariant := "mythic" },
  { focusVariant := "legendary" }
]

/-- Field purchase prices (farm-data.ts `fieldPrices`). -/
def fieldPrices : List ℚ := [0, 50, 100, 200, 500, 1000, 2000, 4000, 8000, 16000]

/-- `getRebirthCost` (farm-data.ts): floor(50000 * 1.35 ^ rebirths). -/
def getRebirthCost (rebirths : Nat) : ℚ := mathFloor (50000 * (1.35 : ℚ) ^ rebirths)

/-- `getRebirthTokens` (farm-data.ts). Math.floor of a nonnegative integer
quotient is Nat division in each band. -/
def getRebirthTokens (rebirths : Nat) : Nat :=
  if rebirths < 5 then 1 + rebirths / 3
  else if rebirths < 20 then 3 + (rebirths - 5) / 5
  else 5 + (rebirths - 20) / 4

/-- Milestone table entry (farm-milestones.ts); display fields omitted. -/
structure RebirthMilestone where
  rebirth : Nat
  key : String
deriving DecidableEq

/-- `rebirthMilestones` (farm-milestones.ts). -/
def rebirthMilestones : List RebirthMilestone := [
  { rebirth := 1,  key := "autoHarvest" },
  { rebirth := 3,  key := "growthBonus" },
  { rebirth := 5,  key := "goldChance" },
  { rebirth := 10, key := "bonusTokens" },
  { rebirth := 15, key := "firstPlantDisc" },
  { rebirth := 15, key := "doubleStart" },
  { rebirth := 20, key := "doubleRebirth" },
  { rebirth := 25, key := "autoSell" },
  { rebirth := 30, key := "tripleRebirth" },
  { rebirth := 50, key := "quadRebirth" },
  { rebirth := 75, key := "quintRebirth" },
  { rebirth := 80, key := "autoWater" }
]

/-- `hasMilestone` (farm-milestones.ts). -/
def hasMilestone (rebirths : Nat) (key : String) : Bool :=
  match rebirthMilestones.find? (fun m => m.key == key) with
  | some m => rebirths ≥ m.rebirth
  | none => false

/-- `getMilestoneGrowthMult` (farm-milestones.ts). -/
def getMilestoneGrowthMult (rebirths : Nat) : ℚ :=
  if hasMilestone rebirths "growthBonus" then 1.1 else 1.0

/-- `getMilestoneGoldMult` (farm-milestones.ts). -/
def getMilestoneGoldMult (rebirths : Nat) : ℚ :=
  if hasMilestone rebirths "goldChance" then 1.5 else 1.0

/-- `getStartMoney` (farm-milestones.ts). -/
def getStartMoney (rebirths : Nat) : ℚ :=
  if hasMilestone rebirths "doubleStart" then 20 else 10

/-- `MAX_GROW_TIME` (farm-milestones.ts): 12-minute cap. -/
def MAX_GROW_TIME : ℚ := 720000

/-- Multi-rebirth option (farm-milestones.ts). -/
structure MultiRebirthOption where
  count : Nat
  costMult : ℚ
  tokenPenalty : ℚ
  requiredRebirth : Nat
deriving DecidableEq

/-- `multiRebirthOptions` (farm-milestones.ts). -/
def multiRebirthOptions : List MultiRebirthOption := [
  { count := 1, costMult := 1,   tokenPenalty := 1,    requiredRebirth := 0 },
  { count := 2, costMult := 2.5, tokenPenalty := 0.95, requiredRebirth := 20 },
  { count := 3, costMult := 3.6, tokenPenalty := 0.92, requiredRebirth := 30 },
  { count := 4, costMult := 4.8, tokenPenalty := 0.90, requiredRebirth := 50 },
  { count := 5, costMult := 6.2, tokenPenalty := 0.88, requiredRebirth := 75 }
]

/-- `rebirthFieldCosts` (farm-milestones.ts). -/
def rebirthFieldCosts : List ℚ := [25, 60]

/-- Loop body of `rollVariant` (farm-data.ts lines 109-125): walk the keys
rarest-first, one Math.random() draw per key; return the first winner and
the advanced oracle position. The catalog lookup always succeeds for the
keys actually walked; the dummy default only totalizes the function. -/
def rollVariantLoop (oracle : Nat → ℚ) (variantBonus globalMult : ℚ)
    (activeEvent : Option GameEvent) : List String → Nat → String × Nat
  | [], k => ("normal", k)
  | vKey :: rest, k =>
    let v := (lookupA variants vKey).getD { multiplier := 1, chance := 1 }
    let base := v.chance / variantBonus / globalMult
    let effectiveChance :=
      match activeEvent with
      | some ev => if ev.focusVariant = vKey then base / 4 else base / 2
      | none => base
    if oracle k < 1 / effectiveChance then (vKey, k + 1)
    else rollVariantLoop oracle variantBonus globalMult activeEvent rest (k + 1)

/-- `rollVariant` (farm-data.ts). `plantKey` is accepted and ignored exactly
as in the source signature. -/
def rollVariant (oracle : Nat → ℚ) (k : Nat) (plantKey : String) (plant : Plant)
    (activeEvent : Option GameEvent) (globalVariantBonus : ℚ) : String × Nat :=
  let variantBonus := plant.variantBonus.getD 1
  let globalMult := 1 + globalVariantBonus / 100
  let _ := plantKey
  rollVariantLoop oracle variantBonus globalMult activeEvent rollKeysRarestFirst k

/-- Loop body of `rollVariantWithPenalty` (farm-data.ts lines 166-182): same
walk with the extra division by the penalty scalar `chanceMult`. -/
def rollVariantWithPenaltyLoop (oracle : Nat → ℚ) (variantBonus globalMult chanceMult : ℚ)
    (activeEvent : Option GameEvent) : List String → Nat → String × Nat
  | [], k => ("normal", k)
  | vKey :: rest, k =>
    let v := (lookupA variants vKey).getD { multiplier := 1, chance := 1 }
    let base := v.chance / variantBonus / globalMult / chanceMult
    let effectiveChance :=
      match activeEvent with
      | some ev => if ev.focusVariant = vKey then base / 4 else base / 2
      | none => base
    if oracle k < 1 / effectiveChance then (vKey, k + 1)
    else rollVariantWithPenaltyLoop oracle variantBonus globalMult chanceMult activeEvent rest (k + 1)

/-- `rollVariantWithPenalty` (farm-data.ts). -/
def rollVariantWithPenalty (oracle : Nat → ℚ) (k : Nat) (plantKey : String) (plant : Plant)
    (activeEvent : Option GameEvent) (globalVariantBonus chanceMult : ℚ) : String × Nat :=
  let variantBonus := plant.variantBonus.getD 1
  let globalMult := 1 + globalVariantBonus / 100
  let _ := plantKey
  rollVariantWithPenaltyLoop oracle variantBonus globalMult chanceMult activeEvent rollKeysRarestFirst k

/-- `rollStackedVariants` (farm-data.ts): roll 1 at full odds, roll 2 at the
0.4 penalty, roll 3 at the 0.15 penalty, keeping only non-normal,
non-duplicate outcomes; a failed roll 2 stops the stacking. -/
def rollStackedVariants (oracle : Nat → ℚ) (k : Nat) (plantKey : String) (plant : Plant)
    (activeEvent : Option GameEvent) (globalVariantBonus : ℚ) : List String × Nat :=
  let r1 := rollVariant oracle k plantKey plant activeEvent globalVariantBonus
  if r1.1 = "normal" then (["normal"], r1.2)
  else
    let r2 := rollVariantWithPenalty oracle r1.2 plantKey plant activeEvent globalVariantBonus 0.4
    if r2.1 ≠ "normal" ∧ r2.1 ≠ r1.1 then
      let r3 := rollVariantWithPenalty oracle r2.2 plantKey plant activeEvent globalVariantBonus 0.15
      if r3.1 ≠ "normal" ∧ r3.1 ∉ [r1.1, r2.1] then ([r1.1, r2.1, r3.1], r3.2)
      else ([r1.1, r2.1], r3.2)
    else ([r1.1], r2.2)

/-- `calculateStackedValue` (farm-data.ts): floor(base * sum of multipliers
* (1 + 0.1 * rebirths)); an unknown variant key contributes 1, mirroring
`variants[vk]?.multiplier || 1`. -/
def calculateStackedValue (baseValue : ℚ) (variantKeys_ : List String) (rebirths : Nat) : ℚ :=
  let totalMultiplier := variantKeys_.foldl
    (fun sum vk => sum + (match lookupA variants vk with
      | some v => v.multiplier
      | none => 1)) 0
  let rebirthMulti := 1 + 0.1 * (rebirths : ℚ)
  mathFloor (baseValue * totalMultiplier * rebirthMulti)

/-- `calculateValue` (farm-data.ts): single-variant value. The source reads
`variants[variantKey].multiplier` unguarded; an unknown key would poison the
result (NaN), embedded here as `none`. -/
def calculateValue (baseValue : ℚ) (variantKey : String) (rebirths : Nat) : Option ℚ :=
  (lookupA variants variantKey).map (fun variant =>
    mathFloor (baseValue * variant.multiplier * (1 + 0.1 * (rebirths : ℚ))))

/-- Event timing constants (farm-data.ts). -/
def EVENT_INTERVAL : ℚ := 15 * 60 * 1000

/-- Event duration constant (farm-data.ts). -/
def EVENT_DURATION : ℚ := 5 * 60 * 1000

/-- Offline constants (farm-data.ts). -/
def MAX_OFFLINE_HOURS : ℚ := 8

/-- Base offline efficiency (farm-data.ts). -/
def BASE_OFFLINE_EFFICIENCY : ℚ := 0.7

/-- Watering base constants (farm-data.ts). -/
def BASE_WATER_DURATION : ℚ := 30000

/-- Watering base cooldown (farm-data.ts). -/
def BASE_WATER_COOLDOWN : ℚ := 15000

/-- Watering upgrade levels (farm-types.ts WaterUpgradeState). -/
structure WaterUpgradeState where
  duration : Nat
  strength : Nat
  range : Nat
  cooldownReduction : Nat
deriving DecidableEq

/-- Rebirth-shop upgrade levels (farm-types.ts RebirthShopState). -/
structure RebirthShopState where
  offlineEfficiency : Nat
  variantChance : Nat
  eventBonus : Nat
  waterStrength : Nat
  fieldStart : Nat
  indexBonus : Nat
deriving DecidableEq

/-- Result of `getWaterStats` (farm-data.ts). -/
structure WaterStats where
  duration : ℚ
  speedMult : ℚ
  range : Nat
  cooldown : ℚ
deriving DecidableEq

/-- `getWaterStats` (farm-data.ts). Out-of-range tier indexing falls back
exactly as the source's `|| 2` / `|| 1` defaults (no tier value is 0). -/
def getWaterStats (upgrades : WaterUpgradeState) : WaterStats :=
  let duration := BASE_WATER_DURATION + (upgrades.duration : ℚ) * 5000
  let strengthTiers : List ℚ := [2, 2.5, 3, 3.5]
  let speedMult := strengthTiers.getD upgrades.strength 2
  let rangeTiers : List Nat := [1, 3, 5]
  let range := rangeTiers.getD upgrades.range 1
  let cooldownReduction := 1 - (upgrades.cooldownReduction : ℚ) * 0.05
  let cooldown := mathFloor (BASE_WATER_COOLDOWN * cooldownReduction)
  { duration := duration, speedMult := speedMult, range := range, cooldown := cooldown }

/-- Field slot (farm-types.ts Field; renamed FarmField because Lean already
has a Field class). -/
structure FarmField where
  id : Nat
  unlocked : Bool
  planted : Option String
  plantTime : ℚ
  stage : Nat
  growStartTime : ℚ
deriving DecidableEq

/-- One background job of the farmer (farm-types.ts FarmerSlot). -/
structure FarmerSlot where
  plantKey : String
  startTime : ℚ
  duration : ℚ
  done : Bool := false
deriving DecidableEq

/-- One seed-buffer entry of the farmer. -/
structure FarmerSeed where
  plantKey : String
  amount : ℚ
deriving DecidableEq

/-- The background worker (farm-types.ts FarmerState). -/
structure FarmerState where
  unlocked : Bool
  level : Nat
  slots : List FarmerSlot
  inventory : List FarmerSeed
  autoReplant : Bool
deriving DecidableEq

/-- The aggregate engine state (farm-types.ts GameState, version 0.4.1).
`autoSell` keeps its string-enum form; `lastPlanted` is keyed by field
index. -/
structure GameState where
  money : ℚ
  fields : List FarmField
  inventory : List (String × ℚ)
  lastUpdate : ℚ
  maxFields : Nat
  rebirths : Nat
  rebirthTokens : ℚ
  discoveredVariants : List (String × List String)
  eventStartTime : Option ℚ
  eventType : Option String
  waterUpgrades : WaterUpgradeState
  rebirthShop : RebirthShopState
  autoHarvest : Bool
  autoSell : String
  autoWater : Bool
  rebirthFieldsBought : Nat
  milestoneTokensClaimed : Bool
  startMoneyUsed : Bool
  lastPlanted : List (Nat × String)
  tutorialCompleted : Bool
  farmer : FarmerState
  seenMilestones : List String
  disableMilestonePopups : Bool
deriving DecidableEq

/-- `defaultWaterUpgrades` (FarmGame component). -/
def defaultWaterUpgrades : WaterUpgradeState :=
  { duration := 0, strength := 0, range := 0, cooldownReduction := 0 }

/-- `defaultRebirthShop` (FarmGame component). -/
def defaultRebirthShop : RebirthShopState :=
  { offlineEfficiency := 0, variantChance := 0, eventBonus := 0,
    waterStrength := 0, fieldStart := 0, indexBonus := 0 }

/-- `defaultFarmer` (FarmGame component). -/
def defaultFarmer : FarmerState :=
  { unlocked := false, level := 1, slots := [], inventory := [], autoReplant := true }

/-- `createDefaultState` (FarmGame component lines 758-794). The three
optional parameters mirror the source's optional arguments; `now` stands
for the Date.now() read that initializes lastUpdate. -/
def createDefaultState (rebirthShop : Option RebirthShopState) (rebirths : Option Nat)
    (rebirthFieldsBought : Option Nat) (now : ℚ) : GameState :=
  let extraFields := (rebirthShop.map (fun shop => shop.fieldStart)).getD 0
  let totalStartFields := 1 + extraFields
  let rFields := rebirthFieldsBought.getD 0
  let totalFields := totalStartFields + rFields
  let startFields := (List.range totalFields).map (fun i =>
    { id := i + 1, unlocked := true, planted := none, plantTime := 0,
      stage := 0, growStartTime := 0 : FarmField })
  let r := rebirths.getD 0
  { money := getStartMoney r,
    fields := startFields,
    inventory := [],
    lastUpdate := now,
    maxFields := 10 + rFields,
    rebirths := 0,
    rebirthTokens := 0,
    discoveredVariants := [],
    eventStartTime := none,
    eventType := none,
    waterUpgrades := defaultWaterUpgrades,
    rebirthShop := rebirthShop.getD defaultRebirthShop,
    autoHarvest := false,
    autoSell := "off",
    autoWater := false,
    rebirthFieldsBought := rFields,
    milestoneTokensClaimed := false,
    startMoneyUsed := false,
    lastPlanted := [],
    tutorialCompleted := false,
    farmer := defaultFarmer,
    seenMilestones := [],
    disableMilestonePopups := false }

/-- `totalVariantsCount` (FarmGame component line 898): all plant keys
(the two catalogs have disjoint key sets) times all variant keys. -/
def totalVariantsCount : Nat := (plants ++ rebirthPlants).length * variantKeys.length

/-- Total number of discovered (plant, variant) records: the component's
`Object.values(discoveredVariants).reduce((a, b) => a + b.length, 0)`. -/
def discoveredCount (m : List (String × List String)) : Nat :=
  m.foldl (fun a e => a + e.2.length) 0

/-- Index completion fraction (FarmGame component lines 899-900 / 1067). -/
def indexCompletionOf (m : List (String × List String)) : ℚ :=
  if totalVariantsCount > 0 then (discoveredCount m : ℚ) / (totalVariantsCount : ℚ) else 0

/-- Index money bonus (FarmGame component lines 901-903 / 1068). -/
def indexBonusOf (indexBonusLevel : Nat) (m : List (String × List String)) : ℚ :=
  if indexBonusLevel > 0 then
    1 + ((indexBonusLevel : ℚ) * 0.01 * mathFloor (indexCompletionOf m * 10))
  else 1

/-- The final credited value of one harvest (doHarvest lines 1065-1069):
the stacked value (itself already floored) times the index-completion
bonus, floored again. -/
def harvestFinalValue (plantValue : ℚ) (variantResult : List String) (rebirths : Nat)
    (indexBonusLevel : Nat) (discovered : List (String × List String)) : ℚ :=
  mathFloor (calculateStackedValue plantValue variantResult rebirths
    * indexBonusOf indexBonusLevel discovered)

/-- The discovered-variants union step shared by doHarvest (lines 1077-1083)
and collectFarmerSlot (lines 1523-1529): ensure the plant's entry exists,
then append each rolled variant not already recorded. -/
def discoverVariants (m : List (String × List String)) (plantKey : String)
    (variantResult : List String) : List (String × List String) :=
  let cur := (lookupA m plantKey).getD []
  let upd := variantResult.foldl (fun acc v => if v ∈ acc then acc else acc ++ [v]) cur
  updateA m plantKey upd

/-- The component's `activeEvent` computed value (lines 888-893): the
running event, if any has not yet exceeded EVENT_DURATION at time `now`.
(An eventStartTime of exactly 0 is falsy in JS; started events carry a real
clock value, so the Option match is faithful.) -/
def activeEventOf (s : GameState) (now : ℚ) : Option GameEvent :=
  match s.eventStartTime, s.eventType with
  | some start, some ty =>
    if now - start > EVENT_DURATION then none
    else eventTypes.find? (fun e => e.focusVariant == ty)
  | _, _ => none

/-- `doHarvest` (FarmGame component lines 1052-1137) restricted to the
GameState update it performs: clear the field, record discovered variants,
and credit money when the auto-sell path fires. The harvested-inventory
push, popups, sounds and particles live outside GameState. -/
def doHarvest (s : GameState) (fieldIndex : Nat) (isAuto : Bool) (now : ℚ)
    (oracle : Nat → ℚ) (k : Nat) : GameState :=
  match s.fields[fieldIndex]? with
  | none => s
  | some field =>
    match field.planted with
    | none => s
    | some plantKey =>
      if field.stage < 3 ∨ field.plantTime > 0 then s
      else
        match lookupA (getAllPlants s.rebirths) plantKey with
        | none => s
        | some plant =>
          let goldMult := getMilestoneGoldMult s.rebirths
          let variantBonus := (s.rebirthShop.variantChance : ℚ) + (if goldMult > 1 then 10 else 0)
          let activeEvent := activeEventOf s now
          let variantResult := (rollStackedVariants oracle k plantKey plant activeEvent variantBonus).1
          let finalValue := harvestFinalValue plant.value variantResult s.rebirths
            s.rebirthShop.indexBonus s.discoveredVariants
          let hasRare := variantResult.any (fun v => v != "normal")
          let newFields := s.fields.set fieldIndex
            { field with planted := none, plantTime := 0, stage := 0, growStartTime := 0 }
          let newDiscovered := discoverVariants s.discoveredVariants plantKey variantResult
          let shouldAutoSell := isAuto && s.autoSell != "off" && hasMilestone s.rebirths "autoSell"
          let isNormal := !hasRare
          let sell := s.autoSell == "all" || (s.autoSell == "normal" && isNormal) ||
            (s.autoSell == "gold+" && !isNormal)
          let autoSellValue := if shouldAutoSell && sell then finalValue else 0
          { s with fields := newFields, discoveredVariants := newDiscovered,
                   money := s.money + autoSellValue }

/-- `plantSeed` (FarmGame component lines 1374-1399). A key missing from
the catalog would fault before any state update in the source; the UI only
passes indices of rendered fields. -/
def plantSeed (s : GameState) (plantKey : String) (fieldIndex : Nat) (now : ℚ) : GameState :=
  if (lookupA s.inventory plantKey).getD 0 > 0 then
    match lookupA (getAllPlants s.rebirths) plantKey with
    | none => s
    | some plant =>
      let cappedGrowTime := min plant.growTime MAX_GROW_TIME
      match s.fields[fieldIndex]? with
      | none => s
      | some field =>
        { s with
          fields := s.fields.set fieldIndex
            { field with planted := some plantKey, plantTime := cappedGrowTime,
                         stage := 1, growStartTime := now },
          inventory := updateA s.inventory plantKey ((lookupA s.inventory plantKey).getD 0 - 1),
          lastPlanted := updateA s.lastPlanted fieldIndex plantKey }
  else s

/-- Indexed map with explicit start index (for embedding the tick's
per-index field walk). -/
def mapWithIndex {α β : Type} (f : Nat → α → β) : Nat → List α → List β
  | _, [] => []
  | i, x :: xs => f i x :: mapWithIndex f (i + 1) xs

/-- Per-field growth update of the 1-second tick (FarmGame component lines
1150-1171): skip empty or already-ripe fields, otherwise advance time by
1000ms times the watering/milestone speed and recompute the stage from the
final remaining time. -/
def tickField (s : GameState) (watered : Nat → Bool) (idx : Nat) (field : FarmField) : FarmField :=
  match field.planted with
  | none => field
  | some plantKey =>
    if field.plantTime ≤ 0 then field
    else
      let ws := getWaterStats s.waterUpgrades
      let wsBonus := (s.rebirthShop.waterStrength : ℚ) * 0.25
      let gMult := getMilestoneGrowthMult s.rebirths
      let speed := (if watered idx then ws.speedMult + wsBonus else 1) * gMult
      let reduction := 1000 * speed
      let newTime := max 0 (field.plantTime - reduction)
      match lookupA (getAllPlants s.rebirths) plantKey with
      | none => field
      | some plant =>
        let cappedGrowTime := min plant.growTime MAX_GROW_TIME
        let progress := 1 - newTime / cappedGrowTime
        let newStage : Nat := if progress ≥ 0.66 then 3 else if progress ≥ 0.33 then 2 else 1
        if newTime ≠ field.plantTime ∨ newStage ≠ field.stage then
          { field with plantTime := newTime, stage := newStage }
        else field

/-- The 1-second tick's GameState update (FarmGame component lines
1145-1206): advance all fields, expire or spawn a timed event, and apply
the one-time +5 token milestone. `watered` is the component-local watering
map at this tick; `spawnRoll` is the Math.random() < 1/900 outcome and
`picked` the pickRandomEvent() outcome. The source's no-change fast path
returns a content-equal state and is dropped. -/
def tickState (s : GameState) (watered : Nat → Bool) (now : ℚ) (spawnRoll : Bool)
    (picked : GameEvent) : GameState :=
  let newFields := mapWithIndex (fun idx f => tickField s watered idx f) 0 s.fields
  let expired : Bool := match s.eventStartTime with
    | some t => decide (now - t > EVENT_DURATION)
    | none => false
  let est1 : Option ℚ := if expired then none else s.eventStartTime
  let ety1 : Option String := if expired then none else s.eventType
  let lastEventEnd : ℚ := match s.eventStartTime with
    | some t => t + EVENT_DURATION
    | none => 0
  let doSpawn := est1 = none ∧ (now - lastEventEnd ≥ EVENT_INTERVAL ∨ lastEventEnd = 0) ∧
    spawnRoll = true
  let est2 := if doSpawn then some now else est1
  let ety2 := if doSpawn then some picked.focusVariant else ety1
  let bonusNow := s.rebirths ≥ 10 ∧ s.milestoneTokensClaimed = false
  let tokens := if bonusNow then s.rebirthTokens + 5 else s.rebirthTokens
  let claimed := if bonusNow then true else s.milestoneTokensClaimed
  { s with fields := newFields, eventStartTime := est2, eventType := ety2,
           rebirthTokens := tokens, milestoneTokensClaimed := claimed }

/-- Per-field offline catch-up of `loadGame` (lines 968-978): growing
fields lose `offlineMs`, floored at 0; a field that reaches 0 is forced to
stage 3 and counted as grown. -/
def offlineCatchupField (offlineMs : ℚ) (field : FarmField) : FarmField × Bool :=
  match field.planted with
  | some _ =>
    if field.plantTime > 0 then
      let t := max 0 (field.plantTime - offlineMs)
      if t ≤ 0 then ({ field with plantTime := 0, stage := 3 }, true)
      else ({ field with plantTime := t }, false)
    else (field, false)
  | none => (field, false)

/-- `loadGame` (FarmGame component lines 954-1020) applied to an in-memory
save `s` at load time `now`: clamp the elapsed time, scale by the offline
efficiency, catch up every growing field, refresh the farmer job done
flags, and stamp lastUpdate. The shape migrations are the identity on a
well-typed state and are omitted. Returns the new state, the grown-field
count and the clamped elapsed time used for the offline report. -/
def loadGame (s : GameState) (now : ℚ) : GameState × Nat × ℚ :=
  let timePassed := min (now - s.lastUpdate) (MAX_OFFLINE_HOURS * 3600000)
  let offlineEff := BASE_OFFLINE_EFFICIENCY + (s.rebirthShop.offlineEfficiency : ℚ) * 0.1
  let offlineMs := timePassed * min offlineEff 1
  let processed := s.fields.map (offlineCatchupField offlineMs)
  let newFields := processed.map Prod.fst
  let grownCount := (processed.filter (fun p => p.2)).length
  let newSlots := s.farmer.slots.map (fun slot =>
    { slot with done := decide (now - slot.startTime ≥ slot.duration) })
  (({ s with fields := newFields,
             farmer := { s.farmer with slots := newSlots },
             lastUpdate := now }), grownCount, timePassed)

/-- `doRebirth` (FarmGame component lines 1704-1770), including the
milestone-popup bookkeeping that appends to seenMilestones. `cheatMode`
and `keepMoneyOnRebirth` are the admin/debug toggles; `now` stands for the
Date.now() read inside createDefaultState. -/
def doRebirth (s : GameState) (multiCount : Nat) (cheatMode keepMoneyOnRebirth : Bool)
    (now : ℚ) : GameState :=
  let opt := match multiRebirthOptions.find? (fun o => o.count == multiCount) with
    | some o => o
    | none => { count := 1, costMult := 1, tokenPenalty := 1, requiredRebirth := 0 }
  let baseCost := getRebirthCost s.rebirths
  let totalCost := mathFloor (baseCost * opt.costMult)
  if cheatMode = false ∧ s.money < totalCost then s
  else
    let newRebirths := s.rebirths + multiCount
    let sumTokens : ℚ := (List.range multiCount).foldl
      (fun acc i => acc + (getRebirthTokens (s.rebirths + i) : ℚ)) 0
    let totalTokens := mathFloor (sumTokens * opt.tokenPenalty)
    let newTokens := s.rebirthTokens + totalTokens
    let ns0 := createDefaultState (some s.rebirthShop) (some newRebirths)
      (some s.rebirthFieldsBought) now
    let ns := { ns0 with
      rebirths := newRebirths,
      rebirthTokens := newTokens,
      discoveredVariants := s.discoveredVariants,
      rebirthShop := s.rebirthShop,
      rebirthFieldsBought := s.rebirthFieldsBought,
      milestoneTokensClaimed := s.milestoneTokensClaimed,
      autoHarvest := if hasMilestone newRebirths "autoHarvest" then s.autoHarvest else false,
      autoSell := if hasMilestone newRebirths "autoSell" then s.autoSell else "off",
      autoWater := if hasMilestone newRebirths "autoWater" then s.autoWater else false,
      farmer := if s.farmer.unlocked then { s.farmer with slots := [] } else s.farmer,
      tutorialCompleted := s.tutorialCompleted,
      lastPlanted := [],
      seenMilestones := s.seenMilestones,
      disableMilestonePopups := s.disableMilestonePopups }
    let ns1 := if keepMoneyOnRebirth then { ns with money := s.money } else ns
    let ns2 := if cheatMode then { ns1 with money := 999999999 } else ns1
    let newMilestone := if s.disableMilestonePopups then none
      else rebirthMilestones.find? (fun m =>
        decide (newRebirths ≥ m.rebirth) && decide (s.rebirths < m.rebirth) &&
        !(s.seenMilestones.contains m.key))
    match newMilestone with
    | some m => { ns2 with seenMilestones := ns2.seenMilestones ++ [m.key] }
    | none => ns2

/-- Rejection/acceptance outcome of `giveSeedsToFarmer`, mirroring its
distinct early-return notification paths. -/
inductive GiveSeedsOutcome where
  | noPlant
  | bufferFull
  | notEnoughSeeds
  | given
deriving DecidableEq

/-- `giveSeedsToFarmer` (FarmGame component lines 1439-1475). The farmer
buffer holds at most 3 distinct plant types; a request larger than the
owned amount, or non-positive, is rejected. Buffer keys are unique, so the
single-index update is embedded as a key-matching map. -/
def giveSeedsToFarmer (s : GameState) (plantKey : String) (amount : ℚ) :
    GiveSeedsOutcome × GameState :=
  match lookupA (getAllPlants s.rebirths) plantKey with
  | none => (GiveSeedsOutcome.noPlant, s)
  | some _ =>
    let found := s.farmer.inventory.any (fun e => e.plantKey == plantKey)
    if found = false ∧ s.farmer.inventory.length ≥ 3 then (GiveSeedsOutcome.bufferFull, s)
    else if (lookupA s.inventory plantKey).getD 0 < amount ∨ amount ≤ 0 then
      (GiveSeedsOutcome.notEnoughSeeds, s)
    else
      let newInv := if found then
          s.farmer.inventory.map (fun e =>
            if e.plantKey == plantKey then { e with amount := e.amount + amount } else e)
        else s.farmer.inventory ++ [{ plantKey := plantKey, amount := amount }]
      (GiveSeedsOutcome.given,
        { s with
          inventory := updateA s.inventory plantKey ((lookupA s.inventory plantKey).getD 0 - amount),
          farmer := { s.farmer with inventory := newInv } })

/-- `collectFarmerSlot` (FarmGame component lines 1477-1535) restricted to
its GameState update: record the rolled variants in the index and remove
the completed job slot. The harvest summary and harvested-inventory push
live outside GameState. -/
def collectFarmerSlot (s : GameState) (slotIndex : Nat) (now : ℚ)
    (oracle : Nat → ℚ) (k : Nat) : GameState :=
  match s.farmer.slots[slotIndex]? with
  | none => s
  | some slot =>
    if now - slot.startTime < slot.duration then s
    else
      match lookupA (getAllPlants s.rebirths) slot.plantKey with
      | none => s
      | some plant =>
        let goldMult := getMilestoneGoldMult s.rebirths
        let variantBonus := (s.rebirthShop.variantChance : ℚ) + (if goldMult > 1 then 10 else 0)
        let activeEvent := activeEventOf s now
        let variantResult :=
          (rollStackedVariants oracle k slot.plantKey plant activeEvent variantBonus).1
        let newDiscovered := discoverVariants s.discoveredVariants slot.plantKey variantResult
        let newSlots := s.farmer.slots.eraseIdx slotIndex
        { s with discoveredVariants := newDiscovered,
                 farmer := { s.farmer with slots := newSlots } }

/-- `buySeed` (FarmGame component lines 1345-1366), including the
first-plant milestone discount. -/
def buySeed (s : GameState) (plantKey : String) (amount : ℚ) : GameState :=
  match lookupA (plants ++ rebirthPlants) plantKey with
  | none => s
  | some plant =>
    let price := if hasMilestone s.rebirths "firstPlantDisc" = true ∧
        s.startMoneyUsed = false ∧ (lookupA s.inventory plantKey).getD 0 = 0 then
        mathFloor (plant.price * 0.5)
      else plant.price
    let totalCost := price * amount
    if s.money < totalCost then s
    else { s with
      money := s.money - totalCost,
      inventory := updateA s.inventory plantKey ((lookupA s.inventory plantKey).getD 0 + amount),
      startMoneyUsed := true }

/-- A locked placeholder field as pushed by buyField's padding loop. -/
def emptyLockedField (id : Nat) : FarmField :=
  { id := id, unlocked := false, planted := none, plantTime := 0, stage := 0, growStartTime := 0 }

/-- `buyField` (FarmGame component lines 1329-1343): pad the field list up
to the bought index with locked placeholders, then unlock the bought slot. -/
def buyField (s : GameState) (index : Nat) : GameState :=
  match fieldPrices[index]? with
  | none => s
  | some price =>
    if s.money ≥ price then
      let padded := s.fields ++ (List.range (index + 1 - s.fields.length)).map
        (fun j => emptyLockedField (s.fields.length + j + 1))
      let newFields := padded.set index
        { id := index + 1, unlocked := true, planted := none, plantTime := 0,
          stage := 0, growStartTime := 0 }
      { s with money := s.money - price, fields := newFields }
    else s

/-- `buyRebirthField` (FarmGame component lines 1772-1793). -/
def buyRebirthField (s : GameState) : GameState :=
  match rebirthFieldCosts[s.rebirthFieldsBought]? with
  | none => s
  | some cost =>
    if s.rebirthTokens < cost then s
    else
      { s with
        rebirthTokens := s.rebirthTokens - cost,
        rebirthFieldsBought := s.rebirthFieldsBought + 1,
        maxFields := s.maxFields + 1,
        fields := s.fields ++ [{ id := s.fields.length + 1, unlocked := true, planted := none,
                                 plantTime := 0, stage := 0, growStartTime := 0 }] }

/-- `waterField` (FarmGame component lines 1653-1693) only writes the
component-local watering and cooldown maps (consumed by the tick through
its `watered` input); the GameState itself is untouched. -/
def waterField (s : GameState) (fieldIndex : Nat) : GameState :=
  let _ := fieldIndex
  s

/-- One engine operation together with the clock reads, random draws and
debug-toggle values it consumes. -/
inductive Step where
  | buySeedStep (plantKey : String) (amount : ℚ)
  | buyFieldStep (index : Nat)
  | buyRebirthFieldStep
  | plantStep (plantKey : String) (fieldIndex : Nat) (now : ℚ)
  | waterStep (fieldIndex : Nat)
  | tickStep (watered : Nat → Bool) (now : ℚ) (spawnRoll : Bool) (picked : GameEvent)
  | harvestStep (fieldIndex : Nat) (isAuto : Bool) (now : ℚ) (oracle : Nat → ℚ) (k : Nat)
  | offlineLoadStep (now : ℚ)
  | rebirthStep (multiCount : Nat) (cheatMode keepMoney : Bool) (now : ℚ)
  | giveSeedsStep (plantKey : String) (amount : ℚ)
  | collectStep (slotIndex : Nat) (now : ℚ) (oracle : Nat → ℚ) (k : Nat)

/-- Apply one engine operation. -/
def stepFn (s : GameState) : Step → GameState
  | .buySeedStep pk amt => buySeed s pk amt
  | .buyFieldStep index => buyField s index
  | .buyRebirthFieldStep => buyRebirthField s
  | .plantStep pk fieldIndex now => plantSeed s pk fieldIndex now
  | .waterStep fieldIndex => waterField s fieldIndex
  | .tickStep watered now spawnRoll picked => tickState s watered now spawnRoll picked
  | .harvestStep fieldIndex isAuto now oracle k => doHarvest s fieldIndex isAuto now oracle k
  | .offlineLoadStep now => (loadGame s now).1
  | .rebirthStep multiCount cheat keep now => doRebirth s multiCount cheat keep now
  | .giveSeedsStep pk amt => (giveSeedsToFarmer s pk amt).2
  | .collectStep slotIndex now oracle k => collectFarmerSlot s slotIndex now oracle k

/-- Apply a sequence of engine operations, oldest first. -/
def applySteps (s : GameState) : List Step → GameState
  | [] => s
  | st :: rest => applySteps (stepFn s st) rest

/-- States reachable from a fresh game through engine operations. -/
def Reachable (s : GameState) : Prop :=
  ∃ now0 steps, applySteps (createDefaultState none none none now0) steps = s


/-! ## Shared helpers for the theorems -/

/-- The carrot catalog entry, for concrete evaluations. -/
def carrotPlant : Plant := { price := 10, value := 25, growTime := 60000 }

theorem lookupA_plants_carrot : lookupA plants "carrot" = some carrotPlant := by
  simp [plants, lookupA, carrotPlant]

theorem ite_eq_of_arms {α : Type} (c : Prop) [Decidable c] {a a' b b' : α}
    (ha : a = a') (hb : b = b') : (if c then a else b) = (if c then a' else b') := by
  rw [ha, hb]

/-! ## C4: single-roll formula -/

/-- Effective rarity of one variant draw as the spec words it: base rarity
divided by the plant variant multiplier, by (1 + globalBonusPercent/100),
and by the event multiplier (4 for the active event focus variant, 2 for
other variants during an event, 1 with no event). Stated from the spec, for
comparison with the source-derived rollVariant. -/
def specEffectiveRarity (v : Variant) (vKey : String) (plant : Plant)
    (activeEvent : Option GameEvent) (globalBonusPercent : ℚ) : ℚ :=
  let eventMult : ℚ := match activeEvent with
    | some ev => if ev.focusVariant = vKey then 4 else 2
    | none => 1
  v.chance / plant.variantBonus.getD 1 / (1 + globalBonusPercent / 100) / eventMult

/-- Single roll as the spec words it: walk the given keys (rarest to
commonest); a draw succeeds when the oracle value is below 1 / effective
rarity; the first success wins, otherwise "normal". Stated from the spec. -/
def specRollVariant (oracle : Nat → ℚ) (plant : Plant) (activeEvent : Option GameEvent)
    (globalBonusPercent : ℚ) : List String → Nat → String × Nat
  | [], k => ("normal", k)
  | vKey :: rest, k =>
    let v := (lookupA variants vKey).getD { multiplier := 1, chance := 1 }
    if oracle k < 1 / specEffectiveRarity v vKey plant activeEvent globalBonusPercent
    then (vKey, k + 1)
    else specRollVariant oracle plant activeEvent globalBonusPercent rest (k + 1)

theorem rollVariantLoop_eq_spec (oracle : Nat → ℚ) (plant : Plant)
    (activeEvent : Option GameEvent) (g : ℚ) (keys : List String) :
    ∀ k, rollVariantLoop oracle (plant.variantBonus.getD 1) (1 + g / 100) activeEvent keys k
      = specRollVariant oracle plant activeEvent g keys k := by
  induction keys with
  | nil => intro k; rfl
  | cons vKey rest ih =>
    intro k
    simp only [rollVariantLoop, specRollVariant, specEffectiveRarity]
    cases activeEvent with
    | none =>
      simp only [div_one]
      exact ite_eq_of_arms _ rfl (ih (k + 1))
    | some ev =>
      by_cases hc : ev.focusVariant = vKey
      · simp only [if_pos hc]
        exact ite_eq_of_arms _ rfl (ih (k + 1))
      · simp only [if_neg hc]
        exact ite_eq_of_arms _ rfl (ih (k + 1))

/-- C4: a single variant roll walks the catalog rarest-first (the base
rarities along the walked key order are strictly decreasing), and for every
plant, event context, bonus and random source it returns exactly the first
walked variant whose draw beats 1 / (baseRarity / plantVariantMultiplier /
(1 + globalBonusPercent/100) / eventMultiplier), with eventMultiplier 4 for
the active event focus variant, 2 for other variants while an event is
active and 1 with no event, and returns "normal" when no draw succeeds. -/
theorem rollVariant_follows_spec_formula :
    List.Pairwise (fun a b : ℚ => a > b)
      (rollKeysRarestFirst.map (fun vk =>
        ((lookupA variants vk).getD { multiplier := 1, chance := 1 }).chance))
    ∧ ∀ (oracle : Nat → ℚ) (k : Nat) (plantKey : String) (plant : Plant)
        (activeEvent : Option GameEvent) (g : ℚ),
      rollVariant oracle k plantKey plant activeEvent g
        = specRollVariant oracle plant activeEvent g rollKeysRarestFirst k := by
  constructor
  · simp +decide [rollKeysRarestFirst, variantKeys, variants, lookupA, List.pairwise_cons]
  · intro oracle k plantKey plant activeEvent g
    unfold rollVariant
    exact rollVariantLoop_eq_spec oracle plant activeEvent g rollKeysRarestFirst k

/-! ## C3: stacked-roll shape and edge behavior -/

/-- C3 counterexample: with a random source on which every draw succeeds
(the constant-0 oracle beats every success threshold here, all six being
positive in this context), rollStackedVariants on a carrot with no event
and no bonus returns the single variant "legendary" -- roll 2 duplicates
roll 1 and stops the stacking -- not 3 distinct non-normal variants as
claimed. -/
theorem rollStackedVariants_all_succeed_not_three :
    (∀ vk ∈ rollKeysRarestFirst,
      (0 : ℚ) < 1 / (((lookupA variants vk).getD { multiplier := 1, chance := 1 }).chance
        / carrotPlant.variantBonus.getD 1 / (1 + (0 : ℚ) / 100)))
    ∧ (rollVariant (fun _ => 0) 0 "carrot" carrotPlant none 0).1 = "legendary"
    ∧ (rollStackedVariants (fun _ => 0) 0 "carrot" carrotPlant none 0).1 = ["legendary"]
    ∧ ((rollStackedVariants (fun _ => 0) 0 "carrot" carrotPlant none 0).1.length = 3 → False) := by
  refine ⟨?_, ?_, ?_, ?_⟩
  · simp +decide [rollKeysRarestFirst, variantKeys, variants, lookupA, carrotPlant]
  · simp +decide [rollVariant, rollVariantLoop, lookupA, variants, rollKeysRarestFirst,
      variantKeys, carrotPlant]
  · simp +decide [rollStackedVariants, rollVariant, rollVariantWithPenalty, rollVariantLoop,
      rollVariantWithPenaltyLoop, lookupA, variants, rollKeysRarestFirst, variantKeys, carrotPlant]
    norm_num
  · simp +decide [rollStackedVariants, rollVariant, rollVariantWithPenalty, rollVariantLoop,
      rollVariantWithPenaltyLoop, lookupA, variants, rollKeysRarestFirst, variantKeys, carrotPlant]
    norm_num

/-- C3 (amended): the stacked roll always returns either exactly ["normal"]
or a list of 1 to 3 distinct non-normal variants; a roll-2 outcome that is
"normal" or duplicates roll 1 stops the stacking with only roll 1's
variant; an always-failing random source yields exactly ["normal"]; an
always-succeeding random source yields exactly ["legendary"] -- a single
variant, because rolls 2 and 3 duplicate roll 1 -- not 3 variants. -/
theorem rollStackedVariants_shape_and_edges :
    (∀ (oracle : Nat → ℚ) (k : Nat) (plantKey : String) (plant : Plant)
        (activeEvent : Option GameEvent) (g : ℚ),
      (rollStackedVariants oracle k plantKey plant activeEvent g).1 = ["normal"] ∨
      ((rollStackedVariants oracle k plantKey plant activeEvent g).1.Nodup ∧
       1 ≤ (rollStackedVariants oracle k plantKey plant activeEvent g).1.length ∧
       (rollStackedVariants oracle k plantKey plant activeEvent g).1.length ≤ 3 ∧
       ∀ v ∈ (rollStackedVariants oracle k plantKey plant activeEvent g).1, v ≠ "normal"))
    ∧ (∀ (oracle : Nat → ℚ) (k : Nat) (plantKey : String) (plant : Plant)
        (activeEvent : Option GameEvent) (g : ℚ),
      (rollVariant oracle k plantKey plant activeEvent g).1 ≠ "normal" →
      ((rollVariantWithPenalty oracle (rollVariant oracle k plantKey plant activeEvent g).2
          plantKey plant activeEvent g 0.4).1 = "normal" ∨
       (rollVariantWithPenalty oracle (rollVariant oracle k plantKey plant activeEvent g).2
          plantKey plant activeEvent g 0.4).1
         = (rollVariant oracle k plantKey plant activeEvent g).1) →
      (rollStackedVariants oracle k plantKey plant activeEvent g).1
        = [(rollVariant oracle k plantKey plant activeEvent g).1])
    ∧ (rollStackedVariants (fun _ => 1/2) 0 "carrot" carrotPlant none 0).1 = ["normal"]
    ∧ (rollStackedVariants (fun _ => 0) 0 "carrot" carrotPlant none 0).1 = ["legendary"] := by
  refine ⟨?_, ?_, ?_, ?_⟩
  · intro oracle k plantKey plant activeEvent g
    simp only [rollStackedVariants]
    set R1 := rollVariant oracle k plantKey plant activeEvent g with hR1
    set R2 := rollVariantWithPenalty oracle R1.2 plantKey plant activeEvent g 0.4 with hR2
    set R3 := rollVariantWithPenalty oracle R2.2 plantKey plant activeEvent g 0.15 with hR3
    by_cases h1 : R1.1 = "normal"
    · rw [if_pos h1]; left; rfl
    · rw [if_neg h1]
      right
      by_cases h2 : R2.1 ≠ "normal" ∧ R2.1 ≠ R1.1
      · rw [if_pos h2]
        by_cases h3 : R3.1 ≠ "normal" ∧ R3.1 ∉ [R1.1, R2.1]
        · rw [if_pos h3]
          have h31 : R3.1 ≠ R1.1 := by
            intro h
            exact h3.2 (by rw [h]; exact List.mem_cons_self _ _)
          have h32 : R3.1 ≠ R2.1 := by
            intro h
            exact h3.2 (by rw [h]; exact List.mem_cons_of_mem _ (List.mem_cons_self _ _))
          refine ⟨?_, by simp, by simp, ?_⟩
          · rw [List.nodup_cons, List.nodup_cons]
            refine ⟨?_, ?_, List.nodup_singleton _⟩
            · intro hmem
              rcases List.mem_cons.mp hmem with h | h
              · exact h2.2 h.symm
              · exact h31 (List.mem_singleton.mp h).symm
            · intro hmem
              exact h32 (List.mem_singleton.mp hmem).symm
          · intro v hv
            rcases List.mem_cons.mp hv with rfl | hv
            · exact h1
            rcases List.mem_cons.mp hv with rfl | hv
            · exact h2.1
            rcases List.mem_cons.mp hv with rfl | hv
            · exact h3.1
            · exact absurd hv (List.not_mem_nil _)
        · rw [if_neg h3]
          refine ⟨?_, by simp, by simp, ?_⟩
          · rw [List.nodup_cons]
            refine ⟨?_, List.nodup_singleton _⟩
            intro hmem
            exact h2.2 (List.mem_singleton.mp hmem).symm
          · intro v hv
            rcases List.mem_cons.mp hv with rfl | hv
            · exact h1
            rcases List.mem_cons.mp hv with rfl | hv
            · exact h2.1
            · exact absurd hv (List.not_mem_nil _)
      · rw [if_neg h2]
        refine ⟨List.nodup_singleton _, by simp, by simp, ?_⟩
        intro v hv
        rcases List.mem_cons.mp hv with rfl | hv
        · exact h1
        · exact absurd hv (List.not_mem_nil _)
  · intro oracle k plantKey plant activeEvent g h1 h2
    unfold rollStackedVariants
    rw [if_neg h1]
    rw [if_neg]
    intro hcon
    rcases h2 with h | h
    · exact hcon.1 h
    · exact hcon.2 h
  · simp +decide [rollStackedVariants, rollVariant, rollVariantWithPenalty, rollVariantLoop,
      rollVariantWithPenaltyLoop, lookupA, variants, rollKeysRarestFirst, variantKeys, carrotPlant]
    norm_num
  · simp +decide [rollStackedVariants, rollVariant, rollVariantWithPenalty, rollVariantLoop,
      rollVariantWithPenaltyLoop, lookupA, variants, rollKeysRarestFirst, variantKeys, carrotPlant]
    norm_num

/-- C3 witness: the duplicate-stop conjunct instantiated at the concrete
always-succeeding context, discharging its two hypotheses there. -/
theorem rollStackedVariants_shape_and_edges_witness :
    (rollStackedVariants (fun _ => 0) 0 "carrot" carrotPlant none 0).1
      = [(rollVariant (fun _ => 0) 0 "carrot" carrotPlant none 0).1] := by
  refine rollStackedVariants_shape_and_edges.2.1 (fun _ => 0) 0 "carrot" carrotPlant none 0 ?_ ?_
  · simp +decide [rollVariant, rollVariantLoop, lookupA, variants, rollKeysRarestFirst,
      variantKeys, carrotPlant]
  · right
    simp +decide [rollVariant, rollVariantWithPenalty, rollVariantLoop,
      rollVariantWithPenaltyLoop, lookupA, variants, rollKeysRarestFirst, variantKeys, carrotPlant]
    norm_num


/-! ## C9: harvest valuation -/

/-- A discovered-variants map with 3 plants fully discovered: 21 of the 105
(plant, variant) pairs, so the completion fraction is exactly 0.2. -/
def discovered21 : List (String × List String) :=
  [("carrot", variantKeys), ("potato", variantKeys), ("tomato", variantKeys)]

theorem foldl_add_map (m : String → ℚ) (l : List String) :
    ∀ a : ℚ, l.foldl (fun s vk => s + m vk) a = a + (l.map m).sum := by
  induction l with
  | nil => intro a; simp
  | cons x xs ih =>
    intro a
    simp only [List.foldl_cons, List.map_cons, List.sum_cons, ih (a + m x)]
    ring

/-- C9 counterexample: harvesting a carrot (base value 25) with the stacked
result ["gold"] (value multiplier 5/2) at prestige count 1, index-bonus
tier 5 and 21 of 105 pairs discovered (index bonus 1.1) credits 74, but the
claimed single-floor formula floor(base * multipliers * prestige mult *
index bonus) gives 75: the code floors the base valuation before applying
the index-completion bonus. -/
theorem harvestValue_single_floor_counterexample :
    lookupA variants "gold" = some { multiplier := 2.5, chance := 20 }
    ∧ indexBonusOf 5 discovered21 = 1.1
    ∧ harvestFinalValue 25 ["gold"] 1 5 discovered21 = 74
    ∧ mathFloor (25 * (2.5 : ℚ) * (1 + 0.1 * 1) * indexBonusOf 5 discovered21) = 75
    ∧ (74 : ℚ) ≠ 75 := by
  refine ⟨?_, ?_, ?_, ?_, by norm_num⟩
  · simp [variants, lookupA]
  · simp [indexBonusOf, indexCompletionOf, discoveredCount, discovered21, totalVariantsCount,
      variantKeys, variants, plants, rebirthPlants, mathFloor]
    norm_num
  · simp [harvestFinalValue, calculateStackedValue, indexBonusOf, indexCompletionOf,
      discoveredCount, discovered21, totalVariantsCount, variantKeys, variants, plants,
      rebirthPlants, mathFloor, lookupA]
    norm_num [Int.floor_eq_iff]
  · simp [indexBonusOf, indexCompletionOf, discoveredCount, discovered21, totalVariantsCount,
      variantKeys, variants, plants, rebirthPlants, mathFloor]
    norm_num [Int.floor_eq_iff]

/-- C9 (amended): the credited harvest value equals
floor(floor(baseValue * (sum of the value multipliers of the stacked
result) * (1 + 0.1 * prestigeCount)) * indexCompletionBonus) with
indexCompletionBonus = 1 + tier * 0.01 * floor(10 * discoveredFraction) --
the base valuation is floored before the index bonus is applied;
calculateValue is a pure function (identical inputs give identical
outputs); and the stacked valuation of a single catalog variant equals the
non-stacked single-variant formula. -/
theorem harvestValue_formula_and_purity :
    (∀ (base : ℚ) (vr : List String) (r tier : Nat) (disc : List (String × List String)),
      harvestFinalValue base vr r tier disc
        = mathFloor (mathFloor (base
            * (vr.map (fun vk => ((lookupA variants vk).map Variant.multiplier).getD 1)).sum
            * (1 + 0.1 * (r : ℚ)))
          * (1 + (tier : ℚ) * 0.01
              * mathFloor (10 * ((discoveredCount disc : ℚ) / (totalVariantsCount : ℚ))))))
    ∧ (∀ (base : ℚ) (vk : String) (r : Nat), calculateValue base vk r = calculateValue base vk r)
    ∧ (∀ (base : ℚ) (vk : String) (r : Nat) (v : Variant), lookupA variants vk = some v →
      calculateValue base vk r = some (calculateStackedValue base [vk] r)) := by
  refine ⟨?_, fun _ _ _ => rfl, ?_⟩
  · intro base vr r tier disc
    have hsum : (vr.foldl (fun sum vk => sum + (match lookupA variants vk with
        | some v => v.multiplier
        | none => 1)) 0)
        = (vr.map (fun vk => ((lookupA variants vk).map Variant.multiplier).getD 1)).sum := by
      have := foldl_add_map
        (fun vk => ((lookupA variants vk).map Variant.multiplier).getD 1) vr 0
      rw [show (fun (sum : ℚ) vk => sum + (match lookupA variants vk with
          | some v => v.multiplier
          | none => 1))
          = (fun (sum : ℚ) vk =>
              sum + ((lookupA variants vk).map Variant.multiplier).getD 1) from ?_, this]
      · rw [zero_add]
      · funext sum vk
        cases lookupA variants vk with
        | none => rfl
        | some v => rfl
    have hfrac : indexCompletionOf disc
        = (discoveredCount disc : ℚ) / (totalVariantsCount : ℚ) := by
      rw [indexCompletionOf, if_pos]
      decide
    have hbonus : indexBonusOf tier disc = 1 + (tier : ℚ) * 0.01
        * mathFloor (10 * ((discoveredCount disc : ℚ) / (totalVariantsCount : ℚ))) := by
      rw [indexBonusOf]
      by_cases ht : tier > 0
      · rw [if_pos ht, hfrac,
          mul_comm ((discoveredCount disc : ℚ) / (totalVariantsCount : ℚ)) 10]
      · rw [if_neg ht]
        have : tier = 0 := by omega
        subst this
        norm_num
    rw [harvestFinalValue, calculateStackedValue, hsum, hbonus]
  · intro base vk r v hv
    rw [calculateValue, hv]
    simp only [Option.map_some']
    rw [calculateStackedValue]
    simp only [List.foldl_cons, List.foldl_nil, hv, zero_add]

/-- C9 witness: the single-variant agreement applied to gold at its catalog
entry, with the concrete values evaluated on both sides. -/
theorem harvestValue_formula_and_purity_witness :
    calculateValue 25 "gold" 0 = some (calculateStackedValue 25 ["gold"] 0)
    ∧ calculateValue 25 "gold" 0 = some 62 := by
  constructor
  · exact harvestValue_formula_and_purity.2.2 25 "gold" 0
      { multiplier := 2.5, chance := 20 } (by simp [variants, lookupA])
  · simp [calculateValue, variants, lookupA, mathFloor]
    norm_num [Int.floor_eq_iff]


/-! ## C10: feeding the farmer -/

theorem lookupA_updateA {κ α : Type} [DecidableEq κ] (m : List (κ × α)) (k key : κ) (v : α) :
    lookupA (updateA m k v) key = if k = key then some v else lookupA m key := by
  induction m with
  | nil =>
    simp only [updateA, lookupA]
  | cons e rest ih =>
    obtain ⟨ek, ev⟩ := e
    by_cases hk : ek = k
    · subst hk
      rw [updateA, if_pos rfl]
      by_cases hkey : ek = key
      · subst hkey
        simp [lookupA]
      · simp [lookupA, hkey]
    · rw [updateA, if_neg hk]
      by_cases hkey : ek = key
      · subst hkey
        have hk2 : ek ≠ k := hk
        simp [lookupA, Ne.symm hk2]
      · simp [lookupA, hkey, ih]

/-- C10: feeding the farmer when its buffer already holds 3 distinct plant
types and the new type is not among them is rejected with no state change
and the explicit buffer-full outcome; requesting more seed units than owned
or a non-positive amount is rejected with no state change; and the player
seed inventory stays nonnegative through this operation. -/
theorem giveSeeds_rejections_and_no_negative :
    (∀ (s : GameState) (plantKey : String) (amount : ℚ) (p : Plant),
      lookupA (getAllPlants s.rebirths) plantKey = some p →
      s.farmer.inventory.any (fun e => e.plantKey == plantKey) = false →
      s.farmer.inventory.length ≥ 3 →
      giveSeedsToFarmer s plantKey amount = (GiveSeedsOutcome.bufferFull, s))
    ∧ (∀ (s : GameState) (plantKey : String) (amount : ℚ),
      ((lookupA s.inventory plantKey).getD 0 < amount ∨ amount ≤ 0) →
      (giveSeedsToFarmer s plantKey amount).2 = s)
    ∧ (∀ (s : GameState) (plantKey : String) (amount : ℚ),
      (∀ (k : String) (v : ℚ), lookupA s.inventory k = some v → 0 ≤ v) →
      ∀ (k : String) (v : ℚ),
        lookupA (giveSeedsToFarmer s plantKey amount).2.inventory k = some v → 0 ≤ v) := by
  refine ⟨?_, ?_, ?_⟩
  · intro s plantKey amount p hp hfound hlen
    rw [giveSeedsToFarmer, hp]
    rw [if_pos ⟨hfound, hlen⟩]
  · intro s plantKey amount hcond
    rw [giveSeedsToFarmer]
    cases hp : lookupA (getAllPlants s.rebirths) plantKey with
    | none => rfl
    | some p =>
      by_cases hbuf : s.farmer.inventory.any (fun e => e.plantKey == plantKey) = false ∧
          s.farmer.inventory.length ≥ 3
      · rw [if_pos hbuf]
      · rw [if_neg hbuf, if_pos hcond]
  · intro s plantKey amount hnn k v
    rw [giveSeedsToFarmer]
    cases hp : lookupA (getAllPlants s.rebirths) plantKey with
    | none => exact hnn k v
    | some p =>
      by_cases hbuf : s.farmer.inventory.any (fun e => e.plantKey == plantKey) = false ∧
          s.farmer.inventory.length ≥ 3
      · rw [if_pos hbuf]
        exact hnn k v
      · rw [if_neg hbuf]
        by_cases hcond : (lookupA s.inventory plantKey).getD 0 < amount ∨ amount ≤ 0
        · rw [if_pos hcond]
          exact hnn k v
        · rw [if_neg hcond]
          push_neg at hcond
          obtain ⟨hge, hpos⟩ := hcond
          simp only
          rw [lookupA_updateA]
          by_cases hkk : plantKey = k
          · rw [if_pos hkk]
            intro hv
            cases hv
            cases hcur : lookupA s.inventory plantKey with
            | none =>
              simp only [hcur, Option.getD_none] at hge ⊢
              linarith
            | some cur =>
              simp only [hcur, Option.getD_some] at hge ⊢
              have := hnn plantKey cur hcur
              linarith
          · rw [if_neg hkk]
            exact hnn k v

/-- C10 witness: a concrete full buffer rejects a new plant type with no
state change, and the rejection conditions and nonnegativity hypotheses are
discharged on a concrete state. -/
theorem giveSeeds_rejections_and_no_negative_witness :
    giveSeedsToFarmer
      { money := 0, fields := [], inventory := [("pumpkin", 4)], lastUpdate := 0,
        maxFields := 10, rebirths := 0, rebirthTokens := 0, discoveredVariants := [],
        eventStartTime := none, eventType := none, waterUpgrades := defaultWaterUpgrades,
        rebirthShop := defaultRebirthShop, autoHarvest := false, autoSell := "off",
        autoWater := false, rebirthFieldsBought := 0, milestoneTokensClaimed := false,
        startMoneyUsed := false, lastPlanted := [], tutorialCompleted := false,
        farmer := { unlocked := true, level := 1,
                    slots := [],
                    inventory := [{ plantKey := "carrot", amount := 1 },
                                  { plantKey := "potato", amount := 1 },
                                  { plantKey := "tomato", amount := 1 }],
                    autoReplant := true },
        seenMilestones := [], disableMilestonePopups := false }
      "pumpkin" 1
      = (GiveSeedsOutcome.bufferFull,
        { money := 0, fields := [], inventory := [("pumpkin", 4)], lastUpdate := 0,
          maxFields := 10, rebirths := 0, rebirthTokens := 0, discoveredVariants := [],
          eventStartTime := none, eventType := none, waterUpgrades := defaultWaterUpgrades,
          rebirthShop := defaultRebirthShop, autoHarvest := false, autoSell := "off",
          autoWater := false, rebirthFieldsBought := 0, milestoneTokensClaimed := false,
          startMoneyUsed := false, lastPlanted := [], tutorialCompleted := false,
          farmer := { unlocked := true, level := 1,
                      slots := [],
                      inventory := [{ plantKey := "carrot", amount := 1 },
                                    { plantKey := "potato", amount := 1 },
                                    { plantKey := "tomato", amount := 1 }],
                      autoReplant := true },
          seenMilestones := [], disableMilestonePopups := false }) := by
  apply giveSeeds_rejections_and_no_negative.1 _ _ _
    { price := 300, value := 600, growTime := 960000 }
  · simp [getAllPlants, plants, rebirthPlants, lookupA]
  · simp +decide
  · norm_num


/-! ## C1: multi-step rebirth -/

/-- C1: for a configured multi-step count N, with no cheat or keep-money
override, doRebirth either rejects (whole state unchanged) when money is
below floor(getRebirthCost(current) * costMult), or advances rebirths by
exactly N, resets money to getStartMoney(newRebirths), keeps
discoveredVariants and the farmer level and seed buffer unchanged, and
adds exactly floor(tokenPenalty * sum of getRebirthTokens(current + i))
tokens. -/
theorem doRebirth_cost_gate_and_partition (s : GameState) (N : Nat)
    (opt : MultiRebirthOption) (now : ℚ)
    (hopt : multiRebirthOptions.find? (fun o => o.count == N) = some opt) :
    (s.money < mathFloor (getRebirthCost s.rebirths * opt.costMult) →
      doRebirth s N false false now = s)
    ∧ (¬s.money < mathFloor (getRebirthCost s.rebirths * opt.costMult) →
      (doRebirth s N false false now).rebirths = s.rebirths + N
      ∧ (doRebirth s N false false now).money = getStartMoney (s.rebirths + N)
      ∧ (doRebirth s N false false now).discoveredVariants = s.discoveredVariants
      ∧ (doRebirth s N false false now).farmer.level = s.farmer.level
      ∧ (doRebirth s N false false now).farmer.inventory = s.farmer.inventory
      ∧ (doRebirth s N false false now).rebirthTokens = s.rebirthTokens
          + mathFloor (opt.tokenPenalty * (List.range N).foldl
              (fun acc i => acc + (getRebirthTokens (s.rebirths + i) : ℚ)) 0)) := by
  constructor
  · intro hmoney
    simp only [doRebirth, hopt]
    rw [if_pos ⟨trivial, hmoney⟩]
  · intro hmoney
    simp only [doRebirth, hopt]
    rw [if_neg (fun hc => hmoney hc.2)]
    cases hms : (if s.disableMilestonePopups then none
        else rebirthMilestones.find? (fun m =>
          decide (s.rebirths + N ≥ m.rebirth) && decide (s.rebirths < m.rebirth) &&
          !(s.seenMilestones.contains m.key))) with
    | none =>
      refine ⟨rfl, rfl, rfl, ?_, ?_, ?_⟩
      · cases hu : s.farmer.unlocked <;> simp [createDefaultState, hu]
      · cases hu : s.farmer.unlocked <;> simp [createDefaultState, hu]
      · simp only [createDefaultState]
        norm_num
        rw [mul_comm]
    | some m =>
      refine ⟨rfl, rfl, rfl, ?_, ?_, ?_⟩
      · cases hu : s.farmer.unlocked <;> simp [createDefaultState, hu]
      · cases hu : s.farmer.unlocked <;> simp [createDefaultState, hu]
      · simp only [createDefaultState]
        norm_num
        rw [mul_comm]

/-- C1 witness: a fresh state given exactly the base cost of 50000 money
passes the gate for N = 1 and lands on rebirth 1 with 10 money, one token
and everything else carried as stated. -/
theorem doRebirth_cost_gate_and_partition_witness :
    ¬(50000 : ℚ) < mathFloor (getRebirthCost 0 * (1 : ℚ))
    ∧ (doRebirth { createDefaultState none none none 0 with money := 50000 } 1 false false 0).rebirths
        = 0 + 1
    ∧ (doRebirth { createDefaultState none none none 0 with money := 50000 } 1 false false 0).money
        = getStartMoney (0 + 1) := by
  have hopt : multiRebirthOptions.find? (fun o => o.count == 1)
      = some { count := 1, costMult := 1, tokenPenalty := 1, requiredRebirth := 0 } := by
    simp +decide [multiRebirthOptions]
  have hs : ({ createDefaultState none none none 0 with money := 50000 } : GameState).money
      = 50000 := rfl
  have hr : ({ createDefaultState none none none 0 with money := 50000 } : GameState).rebirths
      = 0 := rfl
  have hcost : ¬(50000 : ℚ) < mathFloor (getRebirthCost 0 * (1 : ℚ)) := by
    norm_num [getRebirthCost, mathFloor]
  have h := doRebirth_cost_gate_and_partition
    { createDefaultState none none none 0 with money := 50000 } 1
    { count := 1, costMult := 1, tokenPenalty := 1, requiredRebirth := 0 } 0 hopt
  refine ⟨hcost, ?_, ?_⟩
  · exact (h.2 (by rw [hs, hr]; exact hcost)).1
  · exact (h.2 (by rw [hs, hr]; exact hcost)).2.1


/-! ## C8: farmer carry-over across rebirth -/

/-- A state about to rebirth with an unlocked farmer that has one active
job slot and a buffered seed. -/
def farmerRebirthState : GameState :=
  { createDefaultState none none none 0 with
      money := 50000,
      farmer := { unlocked := true, level := 2,
                  slots := [{ plantKey := "carrot", startTime := 0, duration := 180000,
                              done := false }],
                  inventory := [{ plantKey := "carrot", amount := 2 }],
                  autoReplant := true } }

/-- C8 counterexample: a rebirth that passes the cost gate empties the
unlocked farmer's active job slots, so the farmer state after doRebirth is
not equal to the farmer state immediately before the call. -/
theorem doRebirth_farmer_slots_cleared_counterexample :
    farmerRebirthState.farmer.slots ≠ []
    ∧ (doRebirth farmerRebirthState 1 false false 0).farmer.slots = []
    ∧ (doRebirth farmerRebirthState 1 false false 0).farmer ≠ farmerRebirthState.farmer := by
  have hopt : multiRebirthOptions.find? (fun o => o.count == 1)
      = some { count := 1, costMult := 1, tokenPenalty := 1, requiredRebirth := 0 } := by
    simp +decide [multiRebirthOptions]
  have hmoney : ¬farmerRebirthState.money
      < mathFloor (getRebirthCost farmerRebirthState.rebirths * (1 : ℚ)) := by
    show ¬(50000 : ℚ) < mathFloor (getRebirthCost 0 * (1 : ℚ))
    norm_num [getRebirthCost, mathFloor]
  refine ⟨by simp [farmerRebirthState], ?_, ?_⟩
  · simp only [doRebirth, hopt]
    rw [if_neg (fun hc => hmoney hc.2)]
    cases hms : (if farmerRebirthState.disableMilestonePopups then none
        else rebirthMilestones.find? (fun m =>
          decide (farmerRebirthState.rebirths + 1 ≥ m.rebirth) &&
          decide (farmerRebirthState.rebirths < m.rebirth) &&
          !(farmerRebirthState.seenMilestones.contains m.key))) with
    | none => simp [farmerRebirthState]
    | some m => simp [farmerRebirthState]
  · intro hcon
    have hslots : (doRebirth farmerRebirthState 1 false false 0).farmer.slots
        = farmerRebirthState.farmer.slots := by rw [hcon]
    rw [show farmerRebirthState.farmer.slots
        = [{ plantKey := "carrot", startTime := 0, duration := 180000, done := false }]
      from rfl] at hslots
    revert hslots
    simp only [doRebirth, hopt]
    rw [if_neg (fun hc => hmoney hc.2)]
    cases hms : (if farmerRebirthState.disableMilestonePopups then none
        else rebirthMilestones.find? (fun m =>
          decide (farmerRebirthState.rebirths + 1 ≥ m.rebirth) &&
          decide (farmerRebirthState.rebirths < m.rebirth) &&
          !(farmerRebirthState.seenMilestones.contains m.key))) with
    | none => simp [farmerRebirthState]
    | some m => simp [farmerRebirthState]

/-- C8 (amended): doRebirth carries the farmer forward -- unlocked flag,
level, seed buffer and auto-replant setting are unchanged -- but an
unlocked farmer's active job slots are cleared (a locked farmer is copied
as is). -/
theorem doRebirth_farmer_carryover (s : GameState) (N : Nat) (opt : MultiRebirthOption)
    (now : ℚ) (hopt : multiRebirthOptions.find? (fun o => o.count == N) = some opt)
    (hmoney : ¬s.money < mathFloor (getRebirthCost s.rebirths * opt.costMult)) :
    (doRebirth s N false false now).farmer.unlocked = s.farmer.unlocked
    ∧ (doRebirth s N false false now).farmer.level = s.farmer.level
    ∧ (doRebirth s N false false now).farmer.inventory = s.farmer.inventory
    ∧ (doRebirth s N false false now).farmer.autoReplant = s.farmer.autoReplant
    ∧ (s.farmer.unlocked = true → (doRebirth s N false false now).farmer.slots = [])
    ∧ (s.farmer.unlocked = false →
        (doRebirth s N false false now).farmer.slots = s.farmer.slots) := by
  simp only [doRebirth, hopt]
  rw [if_neg (fun hc => hmoney hc.2)]
  cases hms : (if s.disableMilestonePopups then none
      else rebirthMilestones.find? (fun m =>
        decide (s.rebirths + N ≥ m.rebirth) && decide (s.rebirths < m.rebirth) &&
        !(s.seenMilestones.contains m.key))) with
  | none =>
    refine ⟨?_, ?_, ?_, ?_, ?_, ?_⟩ <;>
      cases hu : s.farmer.unlocked <;> simp [hu]
  | some m =>
    refine ⟨?_, ?_, ?_, ?_, ?_, ?_⟩ <;>
      cases hu : s.farmer.unlocked <;> simp [hu]

/-- C8 witness: the carry-over applied to the concrete pre-rebirth state
with an unlocked farmer, discharging the option and cost hypotheses. -/
theorem doRebirth_farmer_carryover_witness :
    (doRebirth farmerRebirthState 1 false false 0).farmer.level
        = farmerRebirthState.farmer.level
    ∧ (doRebirth farmerRebirthState 1 false false 0).farmer.inventory
        = farmerRebirthState.farmer.inventory := by
  have h := doRebirth_farmer_carryover farmerRebirthState 1
    { count := 1, costMult := 1, tokenPenalty := 1, requiredRebirth := 0 } 0
    (by simp +decide [multiRebirthOptions])
    (by show ¬(50000 : ℚ) < mathFloor (getRebirthCost 0 * (1 : ℚ))
        norm_num [getRebirthCost, mathFloor])
  exact ⟨h.2.1, h.2.2.1⟩


/-! ## C7: offline reconciliation -/

/-- The stage function of remaining time over the capped grow duration, as
the tick computes it (FarmGame lines 1162-1163 and getStageFromProgress):
stage 3 from progress 0.66, stage 2 from progress 0.33, else 1; remaining
time 0 means progress 1, hence stage 3. -/
def stageOfRemaining (remaining cappedGrowTime : ℚ) : Nat :=
  if 1 - remaining / cappedGrowTime ≥ 0.66 then 3
  else if 1 - remaining / cappedGrowTime ≥ 0.33 then 2
  else 1

/-- A save with one half-way carrot field, saved at clock 0. -/
def offlineTestState : GameState :=
  { createDefaultState none none none 0 with
      fields := [{ id := 1, unlocked := true, planted := some "carrot",
                   plantTime := 60000, stage := 1, growStartTime := 0 }] }

/-- C7 counterexample: loading the growing carrot save 50 seconds later
(effective catch-up 35 seconds at 0.7 efficiency) leaves remainingGrowMs =
25000 but keeps the stored stage 1, while recomputing the stage from the
final remaining time over the capped duration gives 2 -- loadGame does not
recompute the stage of fields that stay growing. -/
theorem loadGame_stage_not_recomputed_counterexample :
    (loadGame offlineTestState 50000).1.fields
      = [{ id := 1, unlocked := true, planted := some "carrot", plantTime := 25000,
           stage := 1, growStartTime := 0 }]
    ∧ stageOfRemaining 25000 (min carrotPlant.growTime MAX_GROW_TIME) = 2
    ∧ (1 : Nat) ≠ 2 := by
  refine ⟨?_, ?_, by norm_num⟩
  · simp only [loadGame, offlineTestState, createDefaultState]
    norm_num [MAX_OFFLINE_HOURS, BASE_OFFLINE_EFFICIENCY, defaultRebirthShop]
    norm_num [offlineCatchupField, max_def]
  · rw [stageOfRemaining]
    norm_num [carrotPlant, MAX_GROW_TIME]

theorem offlineCatchupField_grown_flag (offlineMs : ℚ) (f : FarmField) :
    (offlineCatchupField offlineMs f).2
      = (decide (f.planted ≠ none) && decide (f.plantTime > 0) &&
         decide (f.plantTime - offlineMs ≤ 0)) := by
  rw [offlineCatchupField]
  cases hp : f.planted with
  | none => simp [hp]
  | some pk =>
    simp only [hp]
    by_cases ht : f.plantTime > 0
    · rw [if_pos ht]
      by_cases hz : max 0 (f.plantTime - offlineMs) ≤ 0
      · rw [if_pos hz]
        simp only [max_le_iff] at hz
        simp [ht, hz.2]
      · rw [if_neg hz]
        rw [max_le_iff, not_and] at hz
        have : ¬f.plantTime - offlineMs ≤ 0 := hz le_rfl
        simp [ht, this]
    · rw [if_neg ht]
      simp [ht]

theorem grownCount_eq_countP (off : ℚ) (l : List FarmField) :
    ((l.map (offlineCatchupField off)).filter (fun p => p.2)).length
      = l.countP (fun f => decide (f.planted ≠ none) && decide (f.plantTime > 0) &&
          decide (f.plantTime - off ≤ 0)) := by
  induction l with
  | nil => rfl
  | cons f fs ih =>
    rw [List.map_cons, List.filter_cons, List.countP_cons]
    cases hb : (decide (f.planted ≠ none) && decide (f.plantTime > 0) &&
        decide (f.plantTime - off ≤ 0)) with
    | true =>
      have h2 : (offlineCatchupField off f).2 = true := by
        rw [offlineCatchupField_grown_flag, hb]
      simp [h2, ih]
    | false =>
      have h2 : (offlineCatchupField off f).2 = false := by
        rw [offlineCatchupField_grown_flag, hb]
      simp [h2, ih]

/-- C7 (amended): on load the elapsed time is clamped to MAX_OFFLINE_HOURS
(8 hours) and scaled by min(1, baseOfflineEfficiency +
offlineEfficiencyTier * 0.1); every growing field has that effective amount
subtracted from remainingGrowMs with a floor of 0; a field that reaches 0
is set to stage 3, while a field that stays growing keeps its stored stage
(the stage is not recomputed until the next tick); and the count of fields
that became ripe purely from this catch-up is produced for the welcome-back
report. In particular a save 100 hours old is clamped to 8 hours before the
efficiency scaling. -/
theorem loadGame_clamps_and_catches_up (s : GameState) (now : ℚ) :
    (loadGame s now).2.2 = min (now - s.lastUpdate) (MAX_OFFLINE_HOURS * 3600000)
    ∧ (loadGame s now).1.lastUpdate = now
    ∧ (∀ (i : Nat) (field : FarmField), s.fields[i]? = some field →
        ∃ field', (loadGame s now).1.fields[i]? = some field'
          ∧ ((field.planted ≠ none ∧ field.plantTime > 0) →
              field'.plantTime = max 0 (field.plantTime
                - min (now - s.lastUpdate) (MAX_OFFLINE_HOURS * 3600000)
                  * min (BASE_OFFLINE_EFFICIENCY + (s.rebirthShop.offlineEfficiency : ℚ) * 0.1) 1)
              ∧ (field'.plantTime = 0 → field'.stage = 3)
              ∧ (field'.plantTime > 0 → field'.stage = field.stage)
              ∧ field'.planted = field.planted)
          ∧ (¬(field.planted ≠ none ∧ field.plantTime > 0) → field' = field))
    ∧ (loadGame s now).2.1 = s.fields.countP (fun f =>
        decide (f.planted ≠ none) && decide (f.plantTime > 0) &&
        decide (f.plantTime - min (now - s.lastUpdate) (MAX_OFFLINE_HOURS * 3600000)
          * min (BASE_OFFLINE_EFFICIENCY + (s.rebirthShop.offlineEfficiency : ℚ) * 0.1) 1 ≤ 0)) := by
  refine ⟨rfl, rfl, ?_, ?_⟩
  · intro i field hfield
    set off := min (now - s.lastUpdate) (MAX_OFFLINE_HOURS * 3600000)
      * min (BASE_OFFLINE_EFFICIENCY + (s.rebirthShop.offlineEfficiency : ℚ) * 0.1) 1 with hoff
    refine ⟨(offlineCatchupField off field).1, ?_, ?_, ?_⟩
    · show (List.map Prod.fst (List.map (offlineCatchupField off) s.fields))[i]? = _
      rw [List.getElem?_map, List.getElem?_map, hfield]
      rfl
    · intro hgrow
      rw [offlineCatchupField]
      cases hp : field.planted with
      | none => exact absurd hp hgrow.1
      | some pk =>
        rw [if_pos hgrow.2]
        by_cases hz : max 0 (field.plantTime - off) ≤ 0
        · rw [if_pos hz]
          have hmax : max 0 (field.plantTime - off) = 0 :=
            le_antisymm hz (le_max_left _ _)
          refine ⟨by simp [hmax], fun _ => rfl, ?_, rfl⟩
          intro hpos
          exact absurd hpos (lt_irrefl 0)
        · rw [if_neg hz]
          refine ⟨rfl, ?_, fun _ => rfl, rfl⟩
          intro hzero
          exact absurd (le_of_eq hzero) hz
    · intro hnot
      rw [offlineCatchupField]
      cases hp : field.planted with
      | none => rfl
      | some pk =>
        rw [if_neg (fun ht => hnot ⟨by simp [hp], ht⟩)]
  · exact grownCount_eq_countP _ s.fields

/-- C7 witness: the clamp applied to a save 100 hours old yields exactly 8
hours of elapsed time, and the per-field catch-up hypothesis is discharged
for the concrete growing carrot field. -/
theorem loadGame_clamps_and_catches_up_witness :
    (loadGame offlineTestState 360000000).2.2 = 28800000
    ∧ ∃ field', (loadGame offlineTestState 50000).1.fields[0]? = some field'
        ∧ field'.plantTime = max 0 (60000 - min (50000 - 0) (MAX_OFFLINE_HOURS * 3600000)
            * min (BASE_OFFLINE_EFFICIENCY + ((0 : Nat) : ℚ) * 0.1) 1) := by
  constructor
  · rw [(loadGame_clamps_and_catches_up offlineTestState 360000000).1]
    show min (360000000 - (0 : ℚ)) (MAX_OFFLINE_HOURS * 3600000) = 28800000
    norm_num [MAX_OFFLINE_HOURS, min_def]
  · obtain ⟨field', hmem, hgrow, _⟩ :=
      (loadGame_clamps_and_catches_up offlineTestState 50000).2.2.1 0
        { id := 1, unlocked := true, planted := some "carrot", plantTime := 60000,
          stage := 1, growStartTime := 0 } rfl
    refine ⟨field', hmem, ?_⟩
    have h := hgrow ⟨by simp, by norm_num⟩
    rw [h.1]
    rfl


/-! ## C2: monotonicity of the discovered-variants index -/

/-- A (plantId, variantId) pair is recorded in the discovered-variants
index. -/
def pairDiscovered (m : List (String × List String)) (plantKey variantKey : String) : Prop :=
  variantKey ∈ (lookupA m plantKey).getD []

theorem mem_discover_foldl (l : List String) :
    ∀ (acc : List String) (v : String), v ∈ acc →
      v ∈ l.foldl (fun acc x => if x ∈ acc then acc else acc ++ [x]) acc := by
  induction l with
  | nil => intro acc v h; exact h
  | cons x xs ih =>
    intro acc v h
    rw [List.foldl_cons]
    by_cases hx : x ∈ acc
    · rw [if_pos hx]; exact ih acc v h
    · rw [if_neg hx]; exact ih _ v (List.mem_append_left _ h)

theorem discoverVariants_mono (m : List (String × List String)) (pk : String)
    (vr : List String) (p v : String) (h : pairDiscovered m p v) :
    pairDiscovered (discoverVariants m pk vr) p v := by
  rw [pairDiscovered, discoverVariants, lookupA_updateA]
  by_cases hp : pk = p
  · rw [if_pos hp]
    subst hp
    simp only [Option.getD_some]
    exact mem_discover_foldl vr _ v h
  · rw [if_neg hp]
    exact h

theorem buySeed_discovered (s : GameState) (pk : String) (amt : ℚ) :
    (buySeed s pk amt).discoveredVariants = s.discoveredVariants := by
  simp only [buySeed]
  repeat' split
  all_goals rfl

theorem buyField_discovered (s : GameState) (i : Nat) :
    (buyField s i).discoveredVariants = s.discoveredVariants := by
  simp only [buyField]
  repeat' split
  all_goals rfl

theorem buyRebirthField_discovered (s : GameState) :
    (buyRebirthField s).discoveredVariants = s.discoveredVariants := by
  simp only [buyRebirthField]
  repeat' split
  all_goals rfl

theorem plantSeed_discovered (s : GameState) (pk : String) (i : Nat) (now : ℚ) :
    (plantSeed s pk i now).discoveredVariants = s.discoveredVariants := by
  simp only [plantSeed]
  repeat' split
  all_goals rfl

theorem tickState_discovered (s : GameState) (watered : Nat → Bool) (now : ℚ)
    (spawnRoll : Bool) (picked : GameEvent) :
    (tickState s watered now spawnRoll picked).discoveredVariants = s.discoveredVariants := rfl

theorem loadGame_discovered (s : GameState) (now : ℚ) :
    (loadGame s now).1.discoveredVariants = s.discoveredVariants := rfl

theorem giveSeeds_discovered (s : GameState) (pk : String) (amt : ℚ) :
    (giveSeedsToFarmer s pk amt).2.discoveredVariants = s.discoveredVariants := by
  simp only [giveSeedsToFarmer]
  repeat' split
  all_goals rfl

theorem doRebirth_discovered (s : GameState) (N : Nat) (cheat keep : Bool) (now : ℚ) :
    (doRebirth s N cheat keep now).discoveredVariants = s.discoveredVariants := by
  simp only [doRebirth]
  repeat' split
  all_goals rfl

theorem doHarvest_discovered_mono (s : GameState) (i : Nat) (isAuto : Bool) (now : ℚ)
    (oracle : Nat → ℚ) (k : Nat) (p v : String)
    (h : pairDiscovered s.discoveredVariants p v) :
    pairDiscovered (doHarvest s i isAuto now oracle k).discoveredVariants p v := by
  simp only [doHarvest]
  repeat' split
  all_goals first
    | exact h
    | exact discoverVariants_mono _ _ _ _ _ h

theorem collectFarmerSlot_discovered_mono (s : GameState) (i : Nat) (now : ℚ)
    (oracle : Nat → ℚ) (k : Nat) (p v : String)
    (h : pairDiscovered s.discoveredVariants p v) :
    pairDiscovered (collectFarmerSlot s i now oracle k).discoveredVariants p v := by
  simp only [collectFarmerSlot]
  repeat' split
  all_goals first
    | exact h
    | exact discoverVariants_mono _ _ _ _ _ h

theorem stepFn_discovered_mono (s : GameState) (st : Step) (p v : String)
    (h : pairDiscovered s.discoveredVariants p v) :
    pairDiscovered (stepFn s st).discoveredVariants p v := by
  cases st with
  | buySeedStep pk amt => rw [stepFn, buySeed_discovered]; exact h
  | buyFieldStep i => rw [stepFn, buyField_discovered]; exact h
  | buyRebirthFieldStep => rw [stepFn, buyRebirthField_discovered]; exact h
  | plantStep pk i now => rw [stepFn, plantSeed_discovered]; exact h
  | waterStep i => exact h
  | tickStep w now sp pk => rw [stepFn, tickState_discovered]; exact h
  | harvestStep i a now o k => exact doHarvest_discovered_mono s i a now o k p v h
  | offlineLoadStep now => rw [stepFn, loadGame_discovered]; exact h
  | rebirthStep N c kp now => rw [stepFn, doRebirth_discovered]; exact h
  | giveSeedsStep pk amt => rw [stepFn, giveSeeds_discovered]; exact h
  | collectStep i now o k => exact collectFarmerSlot_discovered_mono s i now o k p v h

/-- C2: across every sequence of engine operations (manual and automated
harvests, farmer-slot collections, prestige resets, and every other engine
step), a (plantId, variantId) pair recorded in discoveredVariants is still
recorded in every later state: the index never loses an entry. -/
theorem discoveredVariants_monotone (s : GameState) (steps : List Step) (p v : String)
    (h : pairDiscovered s.discoveredVariants p v) :
    pairDiscovered (applySteps s steps).discoveredVariants p v := by
  induction steps generalizing s with
  | nil => exact h
  | cons st rest ih =>
    rw [applySteps]
    exact ih (stepFn s st) (stepFn_discovered_mono s st p v h)

/-- C2 witness: a state that has recorded (carrot, gold) keeps it across a
harvest followed by a prestige reset. -/
theorem discoveredVariants_monotone_witness :
    pairDiscovered ((applySteps
      { createDefaultState none none none 0 with
          money := 50000, discoveredVariants := [("carrot", ["normal", "gold"])] }
      [Step.harvestStep 0 false 0 (fun _ => 0) 0,
       Step.rebirthStep 1 false false 0]).discoveredVariants) "carrot" "gold" := by
  apply discoveredVariants_monotone
  rw [pairDiscovered]
  simp [lookupA]


/-! ## C5 and C6: field-state invariants -/

/-- The per-field well-formedness the engine maintains: remaining time is
nonnegative, an empty field is exactly a stage-0 field with no remaining
time, and a planted field carries a catalog key and is at stage 3 whenever
its remaining time is 0. -/
def FieldInv (rebirths : Nat) (f : FarmField) : Prop :=
  0 ≤ f.plantTime
  ∧ (f.planted = none ↔ f.stage = 0)
  ∧ (f.planted = none → f.plantTime = 0)
  ∧ ∀ pk, f.planted = some pk →
      (∃ p, lookupA (getAllPlants rebirths) pk = some p) ∧ (f.plantTime = 0 → f.stage = 3)

/-- All fields of a state are well-formed. -/
def StateInv (s : GameState) : Prop := ∀ f ∈ s.fields, FieldInv s.rebirths f

theorem fieldInv_cleared (r : Nat) (f : FarmField)
    (hp : f.planted = none) (ht : f.plantTime = 0) (hs : f.stage = 0) : FieldInv r f := by
  refine ⟨le_of_eq ht.symm, ⟨fun _ => hs, fun _ => hp⟩, fun _ => ht, ?_⟩
  intro pk hpk
  rw [hp] at hpk
  cases hpk

theorem stateInv_createDefault (shop : Option RebirthShopState) (rb rf : Option Nat)
    (now : ℚ) : StateInv (createDefaultState shop rb rf now) := by
  intro f hf
  simp only [createDefaultState, List.mem_map] at hf
  obtain ⟨i, _, rfl⟩ := hf
  exact fieldInv_cleared _ _ rfl rfl rfl

theorem lookupA_mem {κ α : Type} [DecidableEq κ] (m : List (κ × α)) (k : κ) (v : α)
    (h : lookupA m k = some v) : (k, v) ∈ m := by
  induction m with
  | nil => cases h
  | cons e rest ih =>
    obtain ⟨ek, ev⟩ := e
    rw [lookupA] at h
    by_cases hk : ek = k
    · rw [if_pos hk] at h
      cases h
      subst hk
      exact List.mem_cons_self _ _
    · rw [if_neg hk] at h
      exact List.mem_cons_of_mem _ (ih h)

theorem plants_growTime_pos (e : String × Plant) (he : e ∈ plants ++ rebirthPlants) :
    0 < e.2.growTime := by
  simp only [plants, rebirthPlants, List.mem_append, List.mem_cons, List.not_mem_nil,
    or_false] at he
  rcases he with (rfl | rfl | rfl | rfl | rfl | rfl | rfl | rfl | rfl | rfl) |
    (rfl | rfl | rfl | rfl | rfl) <;> norm_num

theorem getAllPlants_growTime_pos (r : Nat) (pk : String) (p : Plant)
    (h : lookupA (getAllPlants r) pk = some p) : 0 < p.growTime := by
  have hmem := lookupA_mem _ _ _ h
  rw [getAllPlants] at hmem
  rcases List.mem_append.mp hmem with hm | hm
  · exact plants_growTime_pos (pk, p) (List.mem_append_left _ hm)
  · exact plants_growTime_pos (pk, p) (List.mem_append_right _ (List.mem_of_mem_filter hm))

theorem cappedGrowTime_pos (r : Nat) (pk : String) (p : Plant)
    (h : lookupA (getAllPlants r) pk = some p) : 0 < min p.growTime MAX_GROW_TIME := by
  rw [lt_min_iff]
  exact ⟨getAllPlants_growTime_pos r pk p h, by norm_num [MAX_GROW_TIME]⟩

theorem buySeed_fields (s : GameState) (pk : String) (amt : ℚ) :
    (buySeed s pk amt).fields = s.fields := by
  simp only [buySeed]
  repeat' split
  all_goals rfl

theorem buySeed_rebirths (s : GameState) (pk : String) (amt : ℚ) :
    (buySeed s pk amt).rebirths = s.rebirths := by
  simp only [buySeed]
  repeat' split
  all_goals rfl

theorem buyField_rebirths (s : GameState) (i : Nat) :
    (buyField s i).rebirths = s.rebirths := by
  simp only [buyField]
  repeat' split
  all_goals rfl

theorem buyRebirthField_rebirths (s : GameState) :
    (buyRebirthField s).rebirths = s.rebirths := by
  simp only [buyRebirthField]
  repeat' split
  all_goals rfl

theorem plantSeed_rebirths (s : GameState) (pk : String) (i : Nat) (now : ℚ) :
    (plantSeed s pk i now).rebirths = s.rebirths := by
  simp only [plantSeed]
  repeat' split
  all_goals rfl

theorem doHarvest_rebirths (s : GameState) (i : Nat) (a : Bool) (now : ℚ)
    (oracle : Nat → ℚ) (k : Nat) : (doHarvest s i a now oracle k).rebirths = s.rebirths := by
  simp only [doHarvest]
  repeat' split
  all_goals rfl

theorem giveSeeds_fields (s : GameState) (pk : String) (amt : ℚ) :
    (giveSeedsToFarmer s pk amt).2.fields = s.fields := by
  simp only [giveSeedsToFarmer]
  repeat' split
  all_goals rfl

theorem giveSeeds_rebirths (s : GameState) (pk : String) (amt : ℚ) :
    (giveSeedsToFarmer s pk amt).2.rebirths = s.rebirths := by
  simp only [giveSeedsToFarmer]
  repeat' split
  all_goals rfl

theorem collectFarmerSlot_fields (s : GameState) (i : Nat) (now : ℚ)
    (oracle : Nat → ℚ) (k : Nat) : (collectFarmerSlot s i now oracle k).fields = s.fields := by
  simp only [collectFarmerSlot]
  repeat' split
  all_goals rfl

theorem collectFarmerSlot_rebirths (s : GameState) (i : Nat) (now : ℚ)
    (oracle : Nat → ℚ) (k : Nat) :
    (collectFarmerSlot s i now oracle k).rebirths = s.rebirths := by
  simp only [collectFarmerSlot]
  repeat' split
  all_goals rfl

theorem stateInv_of_same (s s' : GameState) (hf : s'.fields = s.fields)
    (hr : s'.rebirths = s.rebirths) (h : StateInv s) : StateInv s' := by
  intro f hmem
  rw [hf] at hmem
  rw [hr]
  exact h f hmem

theorem plantSeed_inv (s : GameState) (pk : String) (i : Nat) (now : ℚ)
    (h : StateInv s) : StateInv (plantSeed s pk i now) := by
  intro f hmem
  rw [plantSeed_rebirths]
  revert hmem
  simp only [plantSeed]
  split
  · split
    · exact fun hmem => h f hmem
    · rename_i p hlk
      split
      · exact fun hmem => h f hmem
      · rename_i f0 hidx
        intro hmem
        rcases List.mem_or_eq_of_mem_set hmem with hmem' | rfl
        · exact h f hmem'
        · have hcap := cappedGrowTime_pos s.rebirths pk p hlk
          refine ⟨le_of_lt hcap, ⟨fun hx => ?_, fun hx => ?_⟩, fun hx => ?_, ?_⟩
          · cases hx
          · cases hx
          · cases hx
          · intro pk' hpk'
            cases hpk'
            exact ⟨⟨p, hlk⟩, fun hx => absurd hx (ne_of_gt hcap)⟩
  · exact fun hmem => h f hmem

theorem buyField_inv (s : GameState) (i : Nat) (h : StateInv s) : StateInv (buyField s i) := by
  intro f hmem
  rw [buyField_rebirths]
  revert hmem
  simp only [buyField]
  split
  · exact fun hmem => h f hmem
  · split
    · intro hmem
      rcases List.mem_or_eq_of_mem_set hmem with hmem' | rfl
      · rcases List.mem_append.mp hmem' with hmem2 | hmem2
        · exact h f hmem2
        · obtain ⟨j, _, rfl⟩ := List.mem_map.mp hmem2
          exact fieldInv_cleared _ _ rfl rfl rfl
      · exact fieldInv_cleared _ _ rfl rfl rfl
    · exact fun hmem => h f hmem

theorem buyRebirthField_inv (s : GameState) (h : StateInv s) :
    StateInv (buyRebirthField s) := by
  intro f hmem
  rw [buyRebirthField_rebirths]
  revert hmem
  simp only [buyRebirthField]
  split
  · exact fun hmem => h f hmem
  · split
    · exact fun hmem => h f hmem
    · intro hmem
      rcases List.mem_append.mp hmem with hmem2 | hmem2
      · exact h f hmem2
      · rcases List.mem_singleton.mp hmem2 with rfl
        exact fieldInv_cleared _ _ rfl rfl rfl

theorem doHarvest_inv (s : GameState) (i : Nat) (a : Bool) (now : ℚ)
    (oracle : Nat → ℚ) (k : Nat) (h : StateInv s) :
    StateInv (doHarvest s i a now oracle k) := by
  intro f hmem
  rw [doHarvest_rebirths]
  revert hmem
  simp only [doHarvest]
  split
  · exact fun hmem => h f hmem
  · rename_i f0 hidx
    split
    · exact fun hmem => h f hmem
    · rename_i pk hp
      split
      · exact fun hmem => h f hmem
      · split
        · exact fun hmem => h f hmem
        · rename_i plant hlk
          intro hmem
          rcases List.mem_or_eq_of_mem_set hmem with hmem' | rfl
          · exact h f hmem'
          · exact fieldInv_cleared _ _ rfl rfl rfl

theorem offlineCatchupField_inv (r : Nat) (off : ℚ) (f : FarmField)
    (h : FieldInv r f) : FieldInv r ((offlineCatchupField off f).1) := by
  simp only [offlineCatchupField]
  split
  · rename_i pk hp
    split
    · split
      · refine ⟨le_refl 0, ⟨fun hx => ?_, fun hx => ?_⟩, fun _ => rfl, ?_⟩
        · rw [hp] at hx
          cases hx
        · cases hx
        · intro pk' hpk'
          rw [hp] at hpk'
          cases hpk'
          exact ⟨(h.2.2.2 pk hp).1, fun _ => rfl⟩
      · rename_i hz
        refine ⟨le_max_left _ _, ⟨fun hx => ?_, fun hx => ?_⟩, fun hx => ?_, ?_⟩
        · rw [hp] at hx
          cases hx
        · exact absurd (h.2.1.mpr hx) (by rw [hp]; simp)
        · rw [hp] at hx
          cases hx
        · intro pk' hpk'
          rw [hp] at hpk'
          cases hpk'
          exact ⟨(h.2.2.2 pk hp).1, fun hx => absurd (le_of_eq hx) hz⟩
    · exact h
  · exact h

theorem loadGame_inv (s : GameState) (now : ℚ) (h : StateInv s) :
    StateInv (loadGame s now).1 := by
  intro f hmem
  have hmem' : f ∈ (s.fields.map (offlineCatchupField
      (min (now - s.lastUpdate) (MAX_OFFLINE_HOURS * 3600000)
        * min (BASE_OFFLINE_EFFICIENCY + (s.rebirthShop.offlineEfficiency : ℚ) * 0.1) 1))).map
      Prod.fst := hmem
  rw [List.map_map] at hmem'
  obtain ⟨f0, hf0, rfl⟩ := List.mem_map.mp hmem'
  exact offlineCatchupField_inv s.rebirths _ f0 (h f0 hf0)

theorem doRebirth_inv (s : GameState) (N : Nat) (cheat keep : Bool) (now : ℚ)
    (h : StateInv s) : StateInv (doRebirth s N cheat keep now) := by
  simp only [doRebirth]
  split
  · exact h
  · intro f hmem
    revert hmem
    repeat' split
    all_goals
      intro hmem
      simp only [createDefaultState, List.mem_map] at hmem
      obtain ⟨i, _, rfl⟩ := hmem
      exact fieldInv_cleared _ _ rfl rfl rfl

theorem stage123_ne_zero {c1 c2 : Prop} [Decidable c1] [Decidable c2] :
    (if c1 then (3 : Nat) else if c2 then 2 else 1) ≠ 0 := by
  split
  · norm_num
  · split <;> norm_num

theorem stage123_eq_three {r c : ℚ} (h : r = 0) :
    (if 1 - r / c ≥ (0.66 : ℚ) then (3 : Nat)
      else if 1 - r / c ≥ (0.33 : ℚ) then 2 else 1) = 3 := by
  rw [h, zero_div]
  rw [if_pos (by norm_num)]

theorem tickField_inv (s : GameState) (w : Nat → Bool) (idx : Nat) (f : FarmField)
    (h : FieldInv s.rebirths f) : FieldInv s.rebirths (tickField s w idx f) := by
  simp only [tickField]
  split
  · exact h
  · rename_i pk hp
    split
    · exact h
    · split
      · exact h
      · rename_i p hlk
        generalize hnt : max 0 (f.plantTime - 1000 *
          ((if w idx = true then (getWaterStats s.waterUpgrades).speedMult
              + (s.rebirthShop.waterStrength : ℚ) * 0.25 else 1)
            * getMilestoneGrowthMult s.rebirths)) = newTime
        generalize hns : (if 1 - newTime / min p.growTime MAX_GROW_TIME ≥ (0.66 : ℚ)
            then (3 : Nat)
            else if 1 - newTime / min p.growTime MAX_GROW_TIME ≥ (0.33 : ℚ) then 2 else 1)
          = newStage
        split
        · refine ⟨?_, ⟨fun hx => ?_, fun hx => ?_⟩, fun hx => ?_, ?_⟩
          · show (0 : ℚ) ≤ newTime
            rw [← hnt]
            exact le_max_left 0 _
          · rw [hp] at hx
            cases hx
          · replace hx : newStage = 0 := hx
            rw [← hns] at hx
            exact absurd hx stage123_ne_zero
          · rw [hp] at hx
            cases hx
          · intro pk' hpk'
            rw [hp] at hpk'
            cases hpk'
            refine ⟨(h.2.2.2 pk hp).1, fun hx => ?_⟩
            replace hx : newTime = 0 := hx
            show newStage = 3
            rw [← hns]
            exact stage123_eq_three hx
        · exact h

theorem mem_mapWithIndex {α β : Type} (fn : Nat → α → β) :
    ∀ (i : Nat) (l : List α) (b : β), b ∈ mapWithIndex fn i l →
      ∃ j x, x ∈ l ∧ b = fn j x := by
  intro i l
  induction l generalizing i with
  | nil => intro b hb; cases hb
  | cons x xs ih =>
    intro b hb
    rw [mapWithIndex] at hb
    rcases List.mem_cons.mp hb with rfl | hb
    · exact ⟨i, x, List.mem_cons_self _ _, rfl⟩
    · obtain ⟨j, y, hy, rfl⟩ := ih (i + 1) _ hb
      exact ⟨j, y, List.mem_cons_of_mem _ hy, rfl⟩

theorem tickState_inv (s : GameState) (w : Nat → Bool) (now : ℚ) (sp : Bool)
    (pk : GameEvent) (h : StateInv s) : StateInv (tickState s w now sp pk) := by
  intro f hmem
  have hmem' : f ∈ mapWithIndex (fun idx f0 => tickField s w idx f0) 0 s.fields := hmem
  obtain ⟨j, x, hx, rfl⟩ := mem_mapWithIndex _ 0 _ f hmem'
  exact tickField_inv s w j x (h x hx)

theorem stepFn_inv (s : GameState) (st : Step) (h : StateInv s) : StateInv (stepFn s st) := by
  cases st with
  | buySeedStep pk amt =>
    exact stateInv_of_same s _ (buySeed_fields s pk amt) (buySeed_rebirths s pk amt) h
  | buyFieldStep i => exact buyField_inv s i h
  | buyRebirthFieldStep => exact buyRebirthField_inv s h
  | plantStep pk i now => exact plantSeed_inv s pk i now h
  | waterStep i => exact h
  | tickStep w now sp pk => exact tickState_inv s w now sp pk h
  | harvestStep i a now o k => exact doHarvest_inv s i a now o k h
  | offlineLoadStep now => exact loadGame_inv s now h
  | rebirthStep N c kp now => exact doRebirth_inv s N c kp now h
  | giveSeedsStep pk amt =>
    exact stateInv_of_same s _ (giveSeeds_fields s pk amt) (giveSeeds_rebirths s pk amt) h
  | collectStep i now o k =>
    exact stateInv_of_same s _ (collectFarmerSlot_fields s i now o k)
      (collectFarmerSlot_rebirths s i now o k) h

theorem applySteps_inv (s : GameState) (steps : List Step) (h : StateInv s) :
    StateInv (applySteps s steps) := by
  induction steps generalizing s with
  | nil => exact h
  | cons st rest ih =>
    rw [applySteps]
    exact ih (stepFn s st) (stepFn_inv s st h)


theorem stateInv_reachable (s : GameState) (h : Reachable s) : StateInv s := by
  obtain ⟨now0, steps, rfl⟩ := h
  exact applySteps_inv _ _ (stateInv_createDefault none none none now0)

set_option maxHeartbeats 1000000 in
theorem tickField_post (s : GameState) (w : Nat → Bool) (idx : Nat) (f : FarmField)
    (h : FieldInv s.rebirths f) :
    0 ≤ (tickField s w idx f).plantTime
    ∧ ∀ pk, (tickField s w idx f).planted = some pk →
        ∃ p, lookupA (getAllPlants s.rebirths) pk = some p
          ∧ (tickField s w idx f).stage
              = stageOfRemaining (tickField s w idx f).plantTime
                  (min p.growTime MAX_GROW_TIME) := by
  simp only [tickField]
  split
  · rename_i hp
    refine ⟨h.1, fun pk hpk => ?_⟩
    rw [hp] at hpk
    cases hpk
  · rename_i pk hp
    split
    · rename_i hle
      have hzero : f.plantTime = 0 := le_antisymm hle h.1
      refine ⟨h.1, fun pk' hpk' => ?_⟩
      rw [hp] at hpk'
      cases hpk'
      obtain ⟨p, hp2⟩ := (h.2.2.2 pk hp).1
      refine ⟨p, hp2, ?_⟩
      rw [(h.2.2.2 pk hp).2 hzero, hzero]
      simp only [stageOfRemaining]
      exact (stage123_eq_three rfl).symm
    · split
      · rename_i hlk
        obtain ⟨p, hp2⟩ := (h.2.2.2 pk hp).1
        rw [hp2] at hlk
        cases hlk
      · rename_i p hlk
        generalize hnt : max 0 (f.plantTime - 1000 *
          ((if w idx = true then (getWaterStats s.waterUpgrades).speedMult
              + (s.rebirthShop.waterStrength : ℚ) * 0.25 else 1)
            * getMilestoneGrowthMult s.rebirths)) = newTime
        generalize hns : (if 1 - newTime / min p.growTime MAX_GROW_TIME ≥ (0.66 : ℚ)
            then (3 : Nat)
            else if 1 - newTime / min p.growTime MAX_GROW_TIME ≥ (0.33 : ℚ) then 2 else 1)
          = newStage
        split
        · refine ⟨?_, fun pk' hpk' => ?_⟩
          · show (0 : ℚ) ≤ newTime
            rw [← hnt]
            exact le_max_left 0 _
          · rw [hp] at hpk'
            cases hpk'
            refine ⟨p, hlk, ?_⟩
            show newStage = stageOfRemaining newTime (min p.growTime MAX_GROW_TIME)
            simp only [stageOfRemaining]
            exact hns.symm
        · rename_i hcond
          push_neg at hcond
          refine ⟨h.1, fun pk' hpk' => ?_⟩
          rw [hp] at hpk'
          cases hpk'
          refine ⟨p, hlk, ?_⟩
          rw [← hcond.2, ← hcond.1]
          simp only [stageOfRemaining]
          exact hns.symm

/-- C6: after any 1-second tick from a reachable state, every field has a
nonnegative remaining grow time, and every planted field's stored stage is
exactly the stage function of the final remaining time over the capped grow
duration (3 from progress 0.66, 2 from 0.33, else 1; in particular 3 when
the remaining time reaches 0) -- the tick recomputes the stage from the
final remaining time rather than incrementing it. -/
theorem tick_stage_consistency (s : GameState) (hs : Reachable s)
    (w : Nat → Bool) (now : ℚ) (spawnRoll : Bool) (picked : GameEvent) :
    ∀ f ∈ (tickState s w now spawnRoll picked).fields,
      0 ≤ f.plantTime
      ∧ ∀ pk, f.planted = some pk →
          ∃ p, lookupA (getAllPlants s.rebirths) pk = some p
            ∧ f.stage = stageOfRemaining f.plantTime (min p.growTime MAX_GROW_TIME) := by
  have hinv := stateInv_reachable s hs
  intro f hmem
  have hmem' : f ∈ mapWithIndex (fun idx f0 => tickField s w idx f0) 0 s.fields := hmem
  obtain ⟨j, x, hx, rfl⟩ := mem_mapWithIndex _ 0 _ f hmem'
  exact tickField_post s w j x (hinv x hx)




/-- Start state for the C5 run: a fresh game at clock 0. -/
def c5s0 : GameState := createDefaultState none none none 0

/-- After buying one carrot seed: the 10 start money is spent. -/
def c5s1 : GameState :=
  { c5s0 with money := 0, inventory := [("carrot", 1)], startMoneyUsed := true }

/-- The planted carrot field. -/
def c5field : FarmField :=
  { id := 1, unlocked := true, planted := some "carrot", plantTime := 60000,
    stage := 1, growStartTime := 0 }

/-- After planting the carrot in field 0 at clock 0. -/
def c5s2 : GameState :=
  { c5s1 with
      fields := [c5field], inventory := [("carrot", 0)],
      lastPlanted := [(0, "carrot")] }

theorem c5step1 : stepFn c5s0 (Step.buySeedStep "carrot" 1) = c5s1 := by
  simp +decide [stepFn, buySeed, c5s0, c5s1, createDefaultState, plants, rebirthPlants,
    lookupA, hasMilestone, rebirthMilestones, getStartMoney, updateA]

theorem c5step2 : stepFn c5s1 (Step.plantStep "carrot" 0 0) = c5s2 := by
  simp +decide [stepFn, plantSeed, c5s1, c5s2, c5s0, c5field, createDefaultState,
    getAllPlants, plants, rebirthPlants, lookupA, updateA, MAX_GROW_TIME]

theorem c5step3 : (stepFn c5s2 (Step.offlineLoadStep 100000)).fields
    = [{ c5field with plantTime := 0, stage := 3 }] := by
  simp +decide [stepFn, loadGame, offlineCatchupField, c5s2, c5s1, c5s0, c5field,
    createDefaultState, MAX_OFFLINE_HOURS, BASE_OFFLINE_EFFICIENCY, defaultRebirthShop]
  norm_num [min_def]


/-- C5 counterexample: after buying a carrot seed, planting it, and loading
the save 100 seconds later, the reachable state holds a field with
remainingGrowMs = 0 whose plantedKey is still "carrot" and whose stage is 3
-- a ripe, uncollected field. So remainingGrowMs = 0 does not imply
plantedKey = null (nor stage = 0): the claimed three-way equivalence fails. -/
theorem reachable_remaining_zero_not_empty_counterexample :
    ∃ s, Reachable s ∧ ∃ f ∈ s.fields,
      f.plantTime = 0 ∧ f.planted ≠ none ∧ f.stage ≠ 0 := by
  refine ⟨stepFn (stepFn (stepFn c5s0 (Step.buySeedStep "carrot" 1))
      (Step.plantStep "carrot" 0 0)) (Step.offlineLoadStep 100000),
    ⟨0, [Step.buySeedStep "carrot" 1, Step.plantStep "carrot" 0 0,
      Step.offlineLoadStep 100000], rfl⟩, ?_⟩
  rw [c5step1, c5step2]
  refine ⟨{ c5field with plantTime := 0, stage := 3 }, ?_, rfl, ?_, ?_⟩
  · rw [c5step3]
    exact List.mem_singleton.mpr rfl
  · simp [c5field]
  · simp

/-- C5 (corrected): in every reachable state each field satisfies the two
directions that do hold -- plantedKey = null exactly when growthStage = 0,
and an empty field has remainingGrowMs = 0. The converse of the latter
fails (see the counterexample), so the claimed three-way equivalence must
drop the remainingGrowMs = 0 implies empty direction. -/
theorem reachable_planted_stage_equivalence (s : GameState) (hs : Reachable s) :
    ∀ f ∈ s.fields,
      (f.planted = none ↔ f.stage = 0) ∧ (f.planted = none → f.plantTime = 0) := by
  intro f hf
  have h := stateInv_reachable s hs f hf
  exact ⟨h.2.1, h.2.2.1⟩

/-- The single field of a fresh game. -/
def freshField : FarmField :=
  { id := 1, unlocked := true, planted := none, plantTime := 0, stage := 0, growStartTime := 0 }

/-- Witness for C5: the corrected equivalence holds at the single field of
the fresh game state, reachable by the empty run. -/
theorem reachable_planted_stage_equivalence_witness :
    (freshField.planted = none ↔ freshField.stage = 0)
    ∧ (freshField.planted = none → freshField.plantTime = 0) :=
  reachable_planted_stage_equivalence (createDefaultState none none none 0) ⟨0, [], rfl⟩
    freshField (by simp [freshField, createDefaultState])


/-- The carrot field after one unwatered tick: 1000ms of growth applied. -/
def c6field : FarmField := { c5field with plantTime := 59000, stage := 1 }

theorem c6tickFields :
    (tickState c5s2 (fun _ => false) 1000 false { focusVariant := "gold" }).fields
      = [c6field] := by
  simp +decide [tickState, mapWithIndex, tickField, c5s2, c5s1, c5s0, c5field, c6field,
    createDefaultState, getAllPlants, plants, rebirthPlants, lookupA, getWaterStats,
    getMilestoneGrowthMult, hasMilestone, rebirthMilestones, MAX_GROW_TIME]
  norm_num [max_def]

/-- Witness for C6: ticking the reachable planted-carrot state once without
watering yields the field with 59000ms remaining at stage 1, which matches
the stage function of the final remaining time. -/
theorem tick_stage_consistency_witness :
    0 ≤ c6field.plantTime
    ∧ ∃ p, lookupA (getAllPlants c5s2.rebirths) "carrot" = some p
        ∧ c6field.stage = stageOfRemaining c6field.plantTime (min p.growTime MAX_GROW_TIME) := by
  have h := tick_stage_consistency c5s2
    ⟨0, [Step.buySeedStep "carrot" 1, Step.plantStep "carrot" 0 0], by
      show stepFn (stepFn c5s0 (Step.buySeedStep "carrot" 1)) (Step.plantStep "carrot" 0 0)
        = c5s2
      rw [c5step1, c5step2]⟩
    (fun _ => false) 1000 false { focusVariant := "gold" } c6field
    (by rw [c6tickFields]; exact List.mem_singleton.mpr rfl)
  exact ⟨h.1, h.2 "carrot" rfl⟩
